import Mathlib

/-!
Verification development for the signalforge "last30-engine" signal ranking
and integrity-scoring pipeline.

The TypeScript sources are shallowly embedded: JavaScript numbers are
modelled as rationals (all arithmetic appearing in the embedded code is
exact decimal/ratio arithmetic, so `Rat` is a faithful idealisation),
JavaScript strings as Lean `String`, `Record<string, number>` objects as
association lists in key-insertion order, `Map`/`Set` insertion-order
semantics as first-occurrence deduplication, and nullable values as
`Option`. Cryptographic hash functions (`crypto.createHash(...)`) are
abstracted as function parameters where no claim depends on the concrete
digest, and SHA-256 is implemented concretely where a claim does depend on
it. Wall-clock time (`Date.now`) and timestamp parsing (`Date.parse`) are
injected as explicit parameters.
-/

namespace SignalForge

/-! ## Generic JavaScript-semantics helpers -/

/-- Embedding of JavaScript `Math.round`: round half away from zero is
`Math.round(x) = floor(x + 0.5)` for every finite number. -/
def jsRound (q : ℚ) : ℤ := ⌊q + 1/2⌋

/-- Embedding of `clamp` from `engine/ranking/scoring.ts`
(`Math.min(max, Math.max(min, value))`). -/
def clamp (value lo hi : ℚ) : ℚ := min hi (max lo value)

/-- Embedding of `clamp01` from `engine/ranking/scoring.ts`. -/
def clamp01 (value : ℚ) : ℚ := clamp value 0 1

/-- First-occurrence deduplication with an accumulator of already-seen
elements; embeds the insertion-order semantics of a JavaScript `Set`/`Map`
built by iterating a list. -/
def dedupFirstAux {α : Type} [DecidableEq α] (seen : List α) : List α → List α
  | [] => []
  | a :: rest =>
    if a ∈ seen then dedupFirstAux seen rest
    else a :: dedupFirstAux (a :: seen) rest

/-- Embedding of `Array.from(new Set(list))`: keep the first occurrence of
each element, in input order. -/
def dedupFirst {α : Type} [DecidableEq α] (l : List α) : List α :=
  dedupFirstAux [] l

/-- Insert `a` into `l` before the first element `b` with `le a b`;
auxiliary for the stable sort below. -/
def orderedInsertBy {α : Type} (le : α → α → Bool) (a : α) : List α → List α
  | [] => [a]
  | b :: l => if le a b then a :: b :: l else b :: orderedInsertBy le a l

/-- Stable sort by a boolean total preorder; embeds the stable
`Array.prototype.sort(comparator)` (stable per the ECMAScript
specification): elements the comparator ties keep their input order. -/
def sortBy {α : Type} (le : α → α → Bool) : List α → List α
  | [] => []
  | a :: l => orderedInsertBy le a (sortBy le l)

/-- ASCII case mapping of `String.prototype.toLowerCase`. Non-ASCII case
pairs are not mapped, which cannot affect tokenization or slugs: the token
alphabet is `[a-z0-9]` and every non-ASCII character is outside it whether
case-mapped or not. -/
def lowerChar (c : Char) : Char :=
  if 65 ≤ c.toNat ∧ c.toNat ≤ 90 then Char.ofNat (c.toNat + 32) else c

/-- Lower-case a string character-wise. -/
def lowerString (s : String) : String := String.mk (s.data.map lowerChar)

/-- Membership in the regex class `[a-z0-9]` (the text is lower-cased
before matching). -/
def isAlnumChar (c : Char) : Bool :=
  decide ((97 ≤ c.toNat ∧ c.toNat ≤ 122) ∨ (48 ≤ c.toNat ∧ c.toNat ≤ 57))

/-- First `n` characters of a string; embeds `String.prototype.slice(0, n)`
(the sliced strings in this development are ASCII, where UTF-16 units and
characters coincide). -/
def strTake (s : String) (n : ℕ) : String := String.mk (s.data.take n)

/-- Lexicographic strict order on character lists by code point; basis of
the JavaScript code-unit string comparison. -/
def listCharLt : List Char → List Char → Bool
  | [], [] => false
  | [], _ :: _ => true
  | _ :: _, [] => false
  | a :: as, b :: bs =>
    if a.toNat < b.toNat then true
    else if b.toNat < a.toNat then false
    else listCharLt as bs

/-- JavaScript code-unit string comparison (`a < b`); for the strings
compared in this development (ASCII tokens and ISO-8601 timestamps) the
code-unit order, the code-point order and `localeCompare` under the
default comparator agree. -/
def strLt (a b : String) : Bool := listCharLt a.data b.data

/-- Non-strict counterpart of `strLt`. -/
def strLe (a b : String) : Bool := !(strLt b a)

/-- Lookup in an association list modelling a JavaScript
`Record<string, number>` with the `?? 0` default. -/
def recordGetD (r : List (String × ℚ)) (k : String) : ℚ :=
  ((r.find? (fun p => p.1 = k)).map Prod.snd).getD 0

/-- Embedding of the `CollectedItem` record produced by the collectors. -/
structure CollectedItem where
  title : String
  url : String
  snippet : String
  published_at : Option String
  source : String
deriving DecidableEq, Repr

/-! ## Embedding of `engine/ranking/scoring.ts` -/

namespace Scoring

structure StatSummary where
  min : ℚ
  median : ℚ
  max : ℚ
deriving DecidableEq, Repr

structure IntegrityComponents where
  timestamp : ℚ
  sources : ℚ
  independence : ℚ
  evidence : ℚ
  baseline : ℚ
deriving DecidableEq, Repr

structure BaselineCountsInput where
  clusters_with_baseline : ℚ
  top_claim_clusters_count : ℚ
deriving DecidableEq, Repr

structure IntegrityScoreInput where
  timestamp_tier_counts : List (String × ℚ)
  flags : List String
  kept : ℤ
  echo_risk_stats : Option StatSummary
  evidence_grade_counts : Option (List (String × ℚ))
  baseline : Option BaselineCountsInput
deriving DecidableEq, Repr

structure IntegrityScoreResult where
  integrity_score : ℤ
  flags : List String
  components : IntegrityComponents
deriving DecidableEq, Repr

/-- Embedding of the `SOURCE_FAILURE_FLAGS` map. -/
def SOURCE_FAILURE_FLAGS : List (String × String) :=
  [("REDDIT_FETCH_FAILED", "SOURCE_FAILURE_REDDIT"),
   ("HN_FETCH_FAILED", "SOURCE_FAILURE_HN"),
   ("GITHUB_FETCH_FAILED", "SOURCE_FAILURE_GITHUB")]

/-- Embedding of `sumCounts`: sum of the values of a record. -/
def sumCounts (counts : List (String × ℚ)) : ℚ :=
  counts.foldl (fun sum p => sum + p.2) 0

/-- Embedding of `percentOf`. -/
def percentOf (count total : ℚ) : ℚ :=
  if total ≤ 0 then 0 else count / total * 100

/-- Embedding of `ratio`. -/
def ratio (count total : ℚ) : ℚ :=
  if total ≤ 0 then 0 else count / total

/-- Embedding of `calculateBaselineScore`. -/
def calculateBaselineScore (baseline : Option BaselineCountsInput) : ℚ :=
  match baseline with
  | none => 0
  | some b =>
    if b.clusters_with_baseline ≤ 0 then 0
    else clamp (10 * (b.clusters_with_baseline / max 1 b.top_claim_clusters_count)) 0 10

structure FlagsInput where
  kept : ℤ
  percentT3 : ℚ
  percentT4 : ℚ
  medianEchoRisk : ℚ
  multiRatio : ℚ
  implementationRatio : ℚ
  existingFlags : List String

/-- Embedding of `buildIntegrityFlags`; a JavaScript `Set` built by
successive `add` calls is modelled as a first-occurrence-deduplicated
list in insertion order. -/
def buildIntegrityFlags (input : FlagsInput) : List String :=
  dedupFirst
    ((if input.kept < 5 then ["DEGRADED_SIGNAL_LOW_VOLUME"] else []) ++
     (if input.percentT3 + input.percentT4 ≥ 20 then ["DEGRADED_SIGNAL_LOW_TIMESTAMP_TRUST"] else []) ++
     (if input.medianEchoRisk ≥ 6/10 then ["DEGRADED_SIGNAL_HIGH_ECHO_RISK"] else []) ++
     (if input.multiRatio = 0 ∧ input.implementationRatio = 0 then ["DEGRADED_SIGNAL_LOW_EVIDENCE"] else []) ++
     (SOURCE_FAILURE_FLAGS.filterMap (fun p =>
       if p.1 ∈ input.existingFlags then some p.2 else none)))

/-- Embedding of `calculateIntegrityScore` from `engine/ranking/scoring.ts`. -/
def calculateIntegrityScore (input : IntegrityScoreInput) : IntegrityScoreResult :=
  let totalTimestamped := sumCounts input.timestamp_tier_counts
  let percentT3 := percentOf (recordGetD input.timestamp_tier_counts "T3") totalTimestamped
  let percentT4 := percentOf (recordGetD input.timestamp_tier_counts "T4") totalTimestamped
  let timestamp := clamp (30 - 2 * (jsRound percentT3 : ℚ) - 5 * (jsRound percentT4 : ℚ)) 0 30
  let failureFlagsCount : ℤ :=
    ((SOURCE_FAILURE_FLAGS.map Prod.fst).filter (fun flag => flag ∈ input.flags)).length
  let sourcesPenalty : ℚ :=
    min 20 ((failureFlagsCount : ℚ) * 10) + (if input.kept < 5 then 5 else 0)
  let sources := clamp (25 - sourcesPenalty) 0 25
  let medianEchoRisk := clamp01 (((input.echo_risk_stats.map StatSummary.median).getD 0))
  let independence := clamp (20 * (1 - medianEchoRisk)) 0 20
  let evidenceCounts := input.evidence_grade_counts.getD []
  let evidenceTotal := sumCounts evidenceCounts
  let multiConfirmed := recordGetD evidenceCounts "multi-confirmed"
  let implementationConfirmed := recordGetD evidenceCounts "implementation-confirmed"
  let multiRatio := ratio multiConfirmed evidenceTotal
  let implementationRatio := ratio implementationConfirmed evidenceTotal
  let evidence := clamp (5 + min 10 (10 * multiRatio) + min 5 (5 * implementationRatio)) 0 15
  let baseline := calculateBaselineScore input.baseline
  let integrityScore := clamp (timestamp + sources + independence + evidence + baseline) 0 100
  { integrity_score := jsRound integrityScore
    flags := buildIntegrityFlags
      { kept := input.kept
        percentT3 := percentT3
        percentT4 := percentT4
        medianEchoRisk := medianEchoRisk
        multiRatio := multiRatio
        implementationRatio := implementationRatio
        existingFlags := input.flags }
    components :=
      { timestamp := timestamp
        sources := sources
        independence := independence
        evidence := evidence
        baseline := baseline } }

end Scoring

/-! ## Embedding of the timestamp window filter (`isWithinWindow`) -/

namespace Clustering

/-- Embedding of the `ClusteredItem` record: a `CollectedItem` plus its
URL-hash `cluster_id`. -/
structure ClusteredItem where
  title : String
  url : String
  snippet : String
  published_at : Option String
  source : String
  cluster_id : String
deriving DecidableEq, Repr

/-- Underlying collected record of a clustered item. -/
def ClusteredItem.toCollectedItem (c : ClusteredItem) : CollectedItem :=
  { title := c.title
    url := c.url
    snippet := c.snippet
    published_at := c.published_at
    source := c.source }

/-- First-seen-wins deduplication by URL, threading the set of URLs already
seen; embeds the `Map`-building loop of `clusterItems` (`Map` insertion
order and first-wins `set` guard). -/
def seenFilter (seen : List String) : List CollectedItem → List CollectedItem
  | [] => []
  | item :: rest =>
    if item.url ∈ seen then seenFilter seen rest
    else item :: seenFilter (item.url :: seen) rest

/-- Embedding of `clusterItems` from `engine/ranking/clustering.ts`. The
truncated SHA-1 of the URL is abstracted as `hashUrl`, since no claim
depends on the concrete digest. -/
def clusterItems (hashUrl : String → String) (items : List CollectedItem) :
    List ClusteredItem :=
  (seenFilter [] items).map (fun item =>
    { title := item.title
      url := item.url
      snippet := item.snippet
      published_at := item.published_at
      source := item.source
      cluster_id := hashUrl item.url })

/-- Embedding of `isWithinWindow`. `Date.parse` is injected as
`parseDate : String → Option ℚ` (returning `none` where the original
returns `NaN`) and `Date.now()` as `now : ℚ` in epoch milliseconds.
The JavaScript guard `if (!publishedAt)` is truthiness-based, so it also
fires on the empty string, not only on `null`. -/
def isWithinWindow (parseDate : String → Option ℚ) (now : ℚ)
    (publishedAt : Option String) (windowDays : ℚ) : Bool :=
  match publishedAt with
  | none => true
  | some s =>
    if s = "" then true
    else
      match parseDate s with
      | none => false
      | some parsed =>
        decide (now - parsed ≤ windowDays * (24 * 60 * 60 * 1000))

end Clustering

/-! ## Embedding of the idea-clustering module (`clusterIdeas`,
`buildSignature`, `tokenize`, evidence grading) -/

namespace IdeaClustering

/-- Embedding of the `STOPWORDS` set. -/
def STOPWORDS : List String :=
  ["a", "about", "above", "after", "again", "against", "all", "and", "any",
   "are", "as", "at", "be", "because", "been", "before", "being", "below",
   "between", "both", "but", "by", "can", "could", "did", "do", "does",
   "doing", "down", "during", "each", "few", "for", "from", "further",
   "had", "has", "have", "having", "he", "her", "here", "hers", "herself",
   "him", "himself", "his", "how", "i", "if", "in", "into", "is", "it",
   "its", "itself", "just", "me", "more", "most", "my", "myself", "no",
   "nor", "not", "now", "of", "off", "on", "once", "only", "or", "other",
   "our", "ours", "ourselves", "out", "over", "own", "same", "she",
   "should", "so", "some", "such", "than", "that", "the", "their",
   "theirs", "them", "themselves", "then", "there", "these", "they",
   "this", "those", "through", "to", "too", "under", "until", "up",
   "very", "was", "we", "were", "what", "when", "where", "which", "while",
   "who", "whom", "why", "with", "you", "your", "yours", "yourself",
   "yourselves"]

/-- Maximal runs of `[a-z0-9]` characters, embedding
`text.match(/[a-z0-9]+/g) ?? []`; `cur` is the current run accumulated in
reverse. -/
def alnumRunsAux (cur : List Char) : List Char → List (List Char)
  | [] => if cur = [] then [] else [cur.reverse]
  | c :: cs =>
    if isAlnumChar c then alnumRunsAux (c :: cur) cs
    else if cur = [] then alnumRunsAux [] cs
    else cur.reverse :: alnumRunsAux [] cs

/-- Maximal alphanumeric runs of a character list. -/
def alnumRuns (l : List Char) : List (List Char) := alnumRunsAux [] l

/-- Embedding of `tokenize`: lower-case, match `[a-z0-9]+` runs, drop
tokens shorter than 3 characters and stop-words. -/
def tokenize (text : String) : List String :=
  ((alnumRuns (lowerString text).data).map (fun run => String.mk run)).filter
    (fun token => 3 ≤ token.length && !(STOPWORDS.contains token))

/-- Frequency bump for one token in a `Map<string, number>` modelled as an
association list in key-insertion order. -/
def bumpCount : List (String × ℕ) → String → List (String × ℕ)
  | [], t => [(t, 1)]
  | (k, n) :: rest, t =>
    if k = t then (k, n + 1) :: rest else (k, n) :: bumpCount rest t

/-- Token frequency table in first-appearance order. -/
def countTokens (tokens : List String) : List (String × ℕ) :=
  tokens.foldl bumpCount []

/-- Order used by the `buildSignature` sort comparator: frequency
descending, ties broken by ascending code-unit comparison
(`localeCompare` restricted to the ASCII token alphabet). -/
def tokenOrder (a b : String × ℕ) : Bool :=
  if a.2 = b.2 then strLe a.1 b.1 else decide (b.2 < a.2)

/-- Top-5 signature-generating tokens: stably sort the frequency table
with `tokenOrder`, take 5, keep the tokens. -/
def topSignatureTokens (title snippet : String) : List String :=
  ((sortBy tokenOrder (countTokens (tokenize (title ++ " " ++ snippet)))).take 5).map
    Prod.fst

/-- Embedding of `buildSignature`: returns `(signature, label)`. -/
def buildSignature (title snippet : String) : String × String :=
  let topTokens := topSignatureTokens title snippet
  if topTokens = [] then ("misc", "misc")
  else
    let signatureTokens := sortBy strLe topTokens
    (String.intercalate "|" signatureTokens, String.intercalate " " signatureTokens)

/-- Embedding of `categorizeSource`. -/
def categorizeSource (source : String) : String :=
  if source = "reddit" ∨ source = "hn" then "discussion"
  else if source = "github_issue" ∨ source = "github_release" then "implementation"
  else if source = "youtube" then "demonstration"
  else "web"

/-- Embedding of `deriveEvidenceGrade`; the JavaScript `Set`s are modelled
as first-occurrence-deduplicated lists. -/
def deriveEvidenceGrade (sources : List String) : String :=
  let categories := dedupFirst (sources.map categorizeSource)
  let gradedCategories := dedupFirst (categories.filter (fun c => c ≠ "web"))
  if 2 ≤ gradedCategories.length then "multi-confirmed"
  else if "implementation" ∈ categories then "implementation-confirmed"
  else "discussion-only"

/-- Intermediate per-record data of `clusterIdeas` (the `prepared` array). -/
structure PreparedEntry where
  item : Clustering.ClusteredItem
  signature : String
  label : String
  idea_cluster_id : String
  origin_id : String
deriving DecidableEq, Repr

/-- Embedding of the per-record preparation in `clusterIdeas`; the
truncated SHA-1 `hashValue` and the URL hostname extraction `extractHost`
are abstracted as parameters, since no claim depends on the digest or on
WHATWG URL parsing. -/
def prepare (hashVal extractHost : String → String)
    (item : Clustering.ClusteredItem) : PreparedEntry :=
  let sl := buildSignature item.title item.snippet
  { item := item
    signature := sl.1
    label := sl.2
    idea_cluster_id := hashVal sl.1
    origin_id := hashVal (extractHost item.url ++ "|" ++ sl.1) }

/-- Insert one entry into the insertion-ordered cluster map
(`Map<string, \x7blabel, items\x7d>`): append to an existing group, else
push a new group. -/
def addToGroups (groups : List (String × String × List PreparedEntry))
    (e : PreparedEntry) : List (String × String × List PreparedEntry) :=
  match groups with
  | [] => [(e.idea_cluster_id, e.label, [e])]
  | (id, label, es) :: rest =>
    if id = e.idea_cluster_id then (id, label, es ++ [e]) :: rest
    else (id, label, es) :: addToGroups rest e

/-- Group prepared entries by `idea_cluster_id` in insertion order. -/
def groupEntries (entries : List PreparedEntry) :
    List (String × String × List PreparedEntry) :=
  entries.foldl addToGroups []

/-- Embedding of `IdeaClusterSummary`. -/
structure IdeaClusterSummary where
  id : String
  label : String
  origin_count : ℕ
  echo_risk : ℚ
  evidence_grade : String
  item_count : ℕ
deriving DecidableEq, Repr

/-- Per-cluster summary computation inside `clusterIdeas`:
`origin_count` distinct origin ids, `echo_risk = clamp01(1 − origin_count/item_count)`,
evidence grade from member sources. -/
def summarize (g : String × String × List PreparedEntry) : IdeaClusterSummary :=
  let originCount := (dedupFirst (g.2.2.map (fun e => e.origin_id))).length
  let itemCount := g.2.2.length
  { id := g.1
    label := g.2.1
    origin_count := originCount
    echo_risk := clamp01 (1 - (originCount : ℚ) / (itemCount : ℚ))
    evidence_grade := deriveEvidenceGrade (g.2.2.map (fun e => e.item.source))
    item_count := itemCount }

/-- Embedding of `IdeaClusteredItem`. -/
structure IdeaClusteredItem where
  title : String
  url : String
  snippet : String
  published_at : Option String
  source : String
  cluster_id : String
  idea_cluster_id : String
  idea_label : String
  origin_id : String
  origin_count : ℕ
  echo_risk : ℚ
  evidence_grade : String
deriving DecidableEq, Repr

/-- Annotate one prepared entry with its cluster summary data (the
`summaryMap` lookup with per-field fallbacks). -/
def annotate (summaries : List IdeaClusterSummary) (e : PreparedEntry) :
    IdeaClusteredItem :=
  let summary := summaries.find? (fun s => s.id = e.idea_cluster_id)
  { title := e.item.title
    url := e.item.url
    snippet := e.item.snippet
    published_at := e.item.published_at
    source := e.item.source
    cluster_id := e.item.cluster_id
    idea_cluster_id := e.idea_cluster_id
    idea_label := ((summary.map (fun s => s.label)).getD e.label)
    origin_id := e.origin_id
    origin_count := ((summary.map (fun s => s.origin_count)).getD 1)
    echo_risk := ((summary.map (fun s => s.echo_risk)).getD 0)
    evidence_grade := ((summary.map (fun s => s.evidence_grade)).getD "discussion-only") }

/-- Embedding of `clusterIdeas`: returns the annotated items and the
per-cluster summaries. -/
def clusterIdeas (hashVal extractHost : String → String)
    (items : List Clustering.ClusteredItem) :
    List IdeaClusteredItem × List IdeaClusterSummary :=
  let prepared := items.map (prepare hashVal extractHost)
  let clusterSummaries := (groupEntries prepared).map summarize
  (prepared.map (annotate clusterSummaries), clusterSummaries)

end IdeaClustering

/-! ## Embedding of the engine-core flag and score computation
(`runEngine` in the engine module: `buildFlags`, `mergeFlags`, and the
local `calculateIntegrityScore`) -/

namespace Engine

/-- Embedding of `buildFlags` from the engine module. -/
def buildFlags (total kept : ℕ) : List String :=
  (if total = 0 then ["no_sources"] else []) ++
  (if kept < total then ["window_filtered"] else [])

/-- Embedding of `mergeFlags` (`Array.from(new Set([...base, ...additional]))`). -/
def mergeFlags (base additional : List String) : List String :=
  dedupFirst (base ++ additional)

/-- Embedding of the local `calculateIntegrityScore` in the engine module
(distinct from the component-based scorer in `scoring.ts`). -/
def calculateIntegrityScore (kept total flagsCount : ℕ) : ℤ :=
  if total = 0 then 0
  else max 0 (jsRound ((kept : ℚ) / (total : ℚ) * 100) - (flagsCount : ℤ) * 5)

/-- Embedding of the window-filter / flag / score slice of `runEngine`:
`windowFiltered = collected.filter(isWithinWindow)`, then
`flags = mergeFlags(buildFlags(collected.length, windowFiltered.length), collectorFlags)`,
then `calculateIntegrityScore(windowFiltered.length, collected.length, flags.length)`. -/
def runEngineScore (parseDate : String → Option ℚ) (now windowDays : ℚ)
    (collected : List CollectedItem) (collectorFlags : List String) :
    ℤ × List String :=
  let windowFiltered := collected.filter
    (fun item => Clustering.isWithinWindow parseDate now item.published_at windowDays)
  let flags := mergeFlags (buildFlags collected.length windowFiltered.length) collectorFlags
  (calculateIntegrityScore windowFiltered.length collected.length flags.length, flags)

end Engine

/-! ## Executable SHA-256 (for the deterministic run identifier) -/

namespace Sha256

/-- Hexadecimal digit character (lower-case), as produced by
`digest("hex")`. -/
def hexDigit (n : ℕ) : Char :=
  if n < 10 then Char.ofNat (48 + n) else Char.ofNat (87 + n)

/-- Decimal digit list of a natural number; `fuel` bounds the recursion
depth (any `fuel > n` suffices). -/
def natDigits (fuel n : ℕ) : List Char :=
  match fuel with
  | 0 => []
  | fuel + 1 =>
    if n < 10 then [hexDigit n]
    else natDigits fuel (n / 10) ++ [hexDigit (n % 10)]

/-- Decimal string of a natural number. -/
def natToString (n : ℕ) : String := String.mk (natDigits (n + 1) n)

/-- Decimal string of an integer, as `JSON.stringify` renders integral
numbers. -/
def intToString (i : ℤ) : String :=
  if i < 0 then "-" ++ natToString i.natAbs else natToString i.natAbs

/-- UTF-8 encoding of one code point. -/
def utf8Encode (c : ℕ) : List ℕ :=
  if c < 128 then [c]
  else if c < 2048 then [192 + c / 64, 128 + c % 64]
  else if c < 65536 then [224 + c / 4096, 128 + c / 64 % 64, 128 + c % 64]
  else [240 + c / 262144, 128 + c / 4096 % 64, 128 + c / 64 % 64, 128 + c % 64]

/-- UTF-8 byte sequence of a string (`crypto` hashes the UTF-8 encoding). -/
def strToBytes (s : String) : List ℕ :=
  (s.data.map (fun c => utf8Encode c.toNat)).flatten

/-- Big-endian byte list of length `n` for a value `v`. -/
def beBytes : ℕ → ℕ → List ℕ
  | 0, _ => []
  | n + 1, v => beBytes n (v / 256) ++ [v % 256]

/-- SHA-256 message padding: append `0x80`, zeros, and the 64-bit
big-endian bit length, to a multiple of 64 bytes. -/
def padMessage (msg : List ℕ) : List ℕ :=
  let L := msg.length
  let k := (64 - (L + 9) % 64) % 64
  msg ++ [128] ++ List.replicate k 0 ++ beBytes 8 (8 * L)

/-- Split a list into chunks of `n`; `fuel` bounds the recursion depth
(the list length always suffices). -/
def chunksOfAux {α : Type} (fuel n : ℕ) (l : List α) : List (List α) :=
  match fuel with
  | 0 => []
  | fuel + 1 => if l.isEmpty then [] else l.take n :: chunksOfAux fuel n (l.drop n)

/-- Split a list into chunks of `n` elements. -/
def chunksOf {α : Type} (n : ℕ) (l : List α) : List (List α) :=
  chunksOfAux l.length n l

/-- Combine bytes into big-endian 32-bit words. -/
def toWords : List ℕ → List ℕ
  | b0 :: b1 :: b2 :: b3 :: rest =>
    (((b0 * 256 + b1) * 256 + b2) * 256 + b3) :: toWords rest
  | _ => []

/-- Right rotation of a 32-bit word. -/
def rotr (x n : ℕ) : ℕ := x / 2 ^ n + x % 2 ^ n * 2 ^ (32 - n)

/-- SHA-256 σ0. -/
def ssig0 (x : ℕ) : ℕ := Nat.xor (Nat.xor (rotr x 7) (rotr x 18)) (x / 8)

/-- SHA-256 σ1. -/
def ssig1 (x : ℕ) : ℕ := Nat.xor (Nat.xor (rotr x 17) (rotr x 19)) (x / 1024)

/-- SHA-256 Σ0. -/
def bsig0 (x : ℕ) : ℕ := Nat.xor (Nat.xor (rotr x 2) (rotr x 13)) (rotr x 22)

/-- SHA-256 Σ1. -/
def bsig1 (x : ℕ) : ℕ := Nat.xor (Nat.xor (rotr x 6) (rotr x 11)) (rotr x 25)

/-- SHA-256 choose function. -/
def chFn (x y z : ℕ) : ℕ := Nat.xor (Nat.land x y) (Nat.land (2 ^ 32 - 1 - x) z)

/-- SHA-256 majority function. -/
def majFn (x y z : ℕ) : ℕ :=
  Nat.xor (Nat.xor (Nat.land x y) (Nat.land x z)) (Nat.land y z)

/-- SHA-256 round constants (decimal values of the standard table). -/
def K : List ℕ :=
  [1116352408, 1899447441, 3049323471, 3921009573, 961987163, 1508970993,
   2453635748, 2870763221, 3624381080, 310598401, 607225278, 1426881987,
   1925078388, 2162078206, 2614888103, 3248222580, 3835390401, 4022224774,
   264347078, 604807628, 770255983, 1249150122, 1555081692, 1996064986,
   2554220882, 2821834349, 2952996808, 3210313671, 3336571891, 3584528711,
   113926993, 338241895, 666307205, 773529912, 1294757372, 1396182291,
   1695183700, 1986661051, 2177026350, 2456956037, 2730485921, 2820302411,
   3259730800, 3345764771, 3516065817, 3600352804, 4094571909, 275423344,
   430227734, 506948616, 659060556, 883997877, 958139571, 1322822218,
   1537002063, 1747873779, 1955562222, 2024104815, 2227730452, 2361852424,
   2428436474, 2756734187, 3204031479, 3329325298]

/-- SHA-256 initial hash state (decimal values of the standard table). -/
def H0 : List ℕ :=
  [1779033703, 3144134277, 1013904242, 2773480762,
   1359893119, 2600822924, 528734635, 1541459225]

/-- Extend the 16 message-schedule words to 64 (`fuel = 48`). -/
def schedule (w : List ℕ) : ℕ → List ℕ
  | 0 => w
  | fuel + 1 =>
    let n := w.length
    let wt := (ssig1 (w.getD (n - 2) 0) + w.getD (n - 7) 0 +
      ssig0 (w.getD (n - 15) 0) + w.getD (n - 16) 0) % 2 ^ 32
    schedule (w ++ [wt]) fuel

/-- One SHA-256 compression round. -/
def compressRound (st : List ℕ) (kw : ℕ × ℕ) : List ℕ :=
  match st with
  | [a, b, c, d, e, f, g, h] =>
    let t1 := (h + bsig1 e + chFn e f g + kw.1 + kw.2) % 2 ^ 32
    let t2 := (bsig0 a + majFn a b c) % 2 ^ 32
    [(t1 + t2) % 2 ^ 32, a, b, c, (d + t1) % 2 ^ 32, e, f, g]
  | st => st

/-- Process one 64-byte block. -/
def processBlock (h : List ℕ) (block : List ℕ) : List ℕ :=
  let w := schedule (toWords block) 48
  let st := (K.zip w).foldl compressRound h
  (h.zip st).map (fun p => (p.1 + p.2) % 2 ^ 32)

/-- Eight lower-case hexadecimal digits of a 32-bit word. -/
def wordToHex (w : ℕ) : String :=
  String.mk ((List.range 8).map (fun i => hexDigit (w / 16 ^ (7 - i) % 16)))

/-- Full SHA-256 hex digest of a string, embedding
`crypto.createHash("sha256").update(s).digest("hex")`. -/
def sha256Hex (s : String) : String :=
  let digest := (chunksOf 64 (padMessage (strToBytes s))).foldl processBlock H0
  String.join (digest.map wordToHex)

end Sha256

/-! ## Embedding of `normalizeQuery`, `slugify` and `buildRunId` from the
engine module -/

namespace Engine

/-- The ECMAScript `\s` character class (WhiteSpace and LineTerminator
code points), used by `trim` and the `\s+` collapse. -/
def isWsChar (c : Char) : Bool :=
  decide (c.toNat = 9 ∨ c.toNat = 10 ∨ c.toNat = 11 ∨ c.toNat = 12 ∨
    c.toNat = 13 ∨ c.toNat = 32 ∨ c.toNat = 160 ∨ c.toNat = 5760 ∨
    (8192 ≤ c.toNat ∧ c.toNat ≤ 8202) ∨ c.toNat = 8232 ∨
    c.toNat = 8233 ∨ c.toNat = 8239 ∨ c.toNat = 8287 ∨
    c.toNat = 12288 ∨ c.toNat = 65279)

/-- Embedding of `String.prototype.trim`: drop leading and trailing
whitespace. -/
def trimWs (l : List Char) : List Char :=
  (((l.dropWhile (fun c => isWsChar c)).reverse.dropWhile
    (fun c => isWsChar c)).reverse)

/-- State machine for `replace(/\s+/g, " ")`: `inWs` records whether the
previous character was inside a whitespace run already replaced. -/
def collapseWsAux (inWs : Bool) : List Char → List Char
  | [] => []
  | c :: cs =>
    if isWsChar c then
      if inWs then collapseWsAux true cs
      else ' ' :: collapseWsAux true cs
    else c :: collapseWsAux false cs

/-- Embedding of `replace(/\s+/g, " ")`. -/
def collapseWs (l : List Char) : List Char := collapseWsAux false l

/-- Embedding of `normalizeQuery`:
`value.trim().toLowerCase().replace(/\s+/g, " ")`. -/
def normalizeQuery (value : String) : String :=
  String.mk (collapseWs ((trimWs value.data).map lowerChar))

/-- State machine for `replace(/[^a-z0-9]+/g, "-")` on the lower-cased
value: `inRun` records whether the previous character was inside a
non-alphanumeric run already replaced by one dash. -/
def repRunsAux (inRun : Bool) : List Char → List Char
  | [] => []
  | c :: cs =>
    if isAlnumChar c then c :: repRunsAux false cs
    else if inRun then repRunsAux true cs
    else '-' :: repRunsAux true cs

/-- Embedding of `replace(/[^a-z0-9]+/g, "-")`. -/
def repRuns (l : List Char) : List Char := repRunsAux false l

/-- State of `repRunsAux` after consuming `l` starting from state `b`:
whether the last character consumed was non-alphanumeric. -/
def runState (b : Bool) (l : List Char) : Bool :=
  l.foldl (fun _ c => !(isAlnumChar c)) b

/-- Drop one leading dash. After run collapsing the string has no adjacent
dashes, so the edge-strip regex `(^-|-$)+` removes exactly one dash at
each end. -/
def dropLeadingDash : List Char → List Char
  | '-' :: rest => rest
  | l => l

/-- Drop one trailing dash. -/
def dropTrailingDash (l : List Char) : List Char :=
  (dropLeadingDash l.reverse).reverse

/-- Embedding of `slugify`: lower-case, replace non-alphanumeric runs by
one dash, strip edge dashes, keep at most 40 characters, fall back to
`"run"` when empty. -/
def slugify (value : String) : String :=
  let slug := String.mk
    ((dropTrailingDash (dropLeadingDash (repRuns (value.data.map lowerChar)))).take 40)
  if slug = "" then "run" else slug

/-- JSON string escaping of one character, as `JSON.stringify` performs
it. -/
def jsonEscapeChar (c : Char) : List Char :=
  if c = Char.ofNat 34 then [Char.ofNat 92, Char.ofNat 34]
  else if c = Char.ofNat 92 then [Char.ofNat 92, Char.ofNat 92]
  else if c.toNat = 8 then [Char.ofNat 92, 'b']
  else if c.toNat = 9 then [Char.ofNat 92, 't']
  else if c.toNat = 10 then [Char.ofNat 92, 'n']
  else if c.toNat = 12 then [Char.ofNat 92, 'f']
  else if c.toNat = 13 then [Char.ofNat 92, 'r']
  else if c.toNat < 32 then
    [Char.ofNat 92, 'u', '0', '0',
      Sha256.hexDigit (c.toNat / 16), Sha256.hexDigit (c.toNat % 16)]
  else [c]

/-- JSON rendering of a string value. -/
def jsonStr (s : String) : String :=
  String.mk (Char.ofNat 34 :: (s.data.map jsonEscapeChar).flatten ++ [Char.ofNat 34])

/-- JSON rendering of an array of strings. -/
def jsonStrArray (l : List String) : String :=
  "[" ++ String.intercalate "," (l.map jsonStr) ++ "]"

/-- The `JSON.stringify` payload of `buildRunId`, with the object keys in
the literal order of the source. -/
def buildPayload (normalizedQuery : String) (windowDays : ℤ)
    (target mode : String) (normalizedSources : List String) (topN : ℤ)
    (runDate : String) : String :=
  "\x7b\"query\":" ++ jsonStr normalizedQuery ++
  ",\"window_days\":" ++ Sha256.intToString windowDays ++
  ",\"target\":" ++ jsonStr target ++
  ",\"mode\":" ++ jsonStr mode ++
  ",\"sources\":" ++ jsonStrArray normalizedSources ++
  ",\"top_n\":" ++ Sha256.intToString topN ++
  ",\"run_date\":" ++ jsonStr runDate ++ "\x7d"

/-- Embedding of the run options consumed by `buildRunId` (`none` for an
absent optional field). -/
structure RunOptions where
  query : String
  window_days : Option ℤ
  target : Option String
  mode : Option String
  top_n : Option ℤ
  deterministic : Option Bool
deriving DecidableEq, Repr

/-- Embedding of `buildRunId`. The random nonce of the nondeterministic
mode (`crypto.randomUUID()`) is injected as `nonceUuid`; deterministic
mode (the default) ignores it. -/
def buildRunId (options : RunOptions) (runDate : String)
    (sources : List String) (nonceUuid : String) : String :=
  let normalizedQuery := normalizeQuery options.query
  let windowDays := options.window_days.getD 30
  let target := options.target.getD "gpt"
  let mode := options.mode.getD "quick"
  let topN := options.top_n.getD 10
  let normalizedSources := sortBy strLe (sources.map lowerString)
  let deterministic := options.deterministic.getD true
  let nonce := if deterministic then "" else "|" ++ nonceUuid
  let payload := buildPayload normalizedQuery windowDays target mode
    normalizedSources topN runDate
  let hash := Sha256.sha256Hex (payload ++ nonce)
  runDate ++ "-" ++ slugify options.query ++ "-" ++ strTake hash 10

end Engine

/-! ## Embedding of the storage module (`insertRun`,
`compareBaselineItems`, `fetchBaselineItems`) -/

namespace Storage

/-- Embedding of the `RunRecord` type of the storage module. -/
structure RunRecord where
  id : String
  query : String
  window_days : ℤ
  target : String
  mode : String
  created_at : String
  integrity_score : ℤ
  flags : List String
deriving DecidableEq, Repr

/-- Row of the `runs` table: `flags` is stored joined with `","`. -/
structure RunRow where
  id : String
  query : String
  window_days : ℤ
  target : String
  mode : String
  created_at : String
  integrity_score : ℤ
  flags : String
deriving DecidableEq, Repr

/-- Embedding of the `ItemRecord` type of the storage module. -/
structure ItemRecord where
  run_id : String
  title : String
  url : String
  snippet : String
  published_at : Option String
  source : String
  cluster_id : String
  idea_cluster_id : String
  evidence_grade : String
  origin_count : ℤ
  engagement : Option ℤ
  timestamp_tier : String
deriving DecidableEq, Repr

/-- State of the SQLite database: the `runs` and `items` tables as row
lists in insertion order. -/
structure DbState where
  runs : List RunRow
  items : List ItemRecord
deriving DecidableEq, Repr

/-- Embedding of `insertRun` from the storage module: an existing run id
short-circuits before any insert; otherwise one run row and all item rows
are appended. -/
def insertRun (state : DbState) (run : RunRecord) (items : List ItemRecord) : DbState :=
  if (state.runs.find? (fun row => row.id = run.id)).isSome then state
  else
    { runs := state.runs ++
        [{ id := run.id
           query := run.query
           window_days := run.window_days
           target := run.target
           mode := run.mode
           created_at := run.created_at
           integrity_score := run.integrity_score
           flags := String.intercalate "," run.flags }]
      items := state.items ++ items }

/-- Embedding of the `BaselineItemRecord` type. -/
structure BaselineItemRecord where
  title : String
  url : String
  published_at : String
  source : String
  evidence_grade : String
  origin_count : ℤ
  engagement : Option ℤ
deriving DecidableEq, Repr

/-- Embedding of the `gradeOrder` lookup (`?? 0` for unknown grades). -/
def gradeOrder (grade : String) : ℤ :=
  if grade = "discussion-only" then 1
  else if grade = "implementation-confirmed" then 2
  else if grade = "multi-confirmed" then 3
  else 0

/-- Embedding of `String.prototype.localeCompare` as the code-unit
comparison (the compared strings are ASCII ISO-8601 timestamps and
titles): negative iff the receiver sorts before the argument. -/
def localeCompare (a b : String) : ℤ :=
  if strLt a b then -1 else if strLt b a then 1 else 0

/-- Final published-at / title tie-break steps of `compareBaselineItems`. -/
def compareTail (a b : BaselineItemRecord) : ℤ :=
  if a.published_at ≠ b.published_at then localeCompare b.published_at a.published_at
  else localeCompare a.title b.title

/-- Embedding of `compareBaselineItems`: grade descending, origin_count
descending, engagement descending only when both engagements are non-null
and differ, then published_at descending, then title ascending. -/
def compareBaselineItems (a b : BaselineItemRecord) : ℤ :=
  if gradeOrder b.evidence_grade - gradeOrder a.evidence_grade ≠ 0 then
    gradeOrder b.evidence_grade - gradeOrder a.evidence_grade
  else if b.origin_count ≠ a.origin_count then b.origin_count - a.origin_count
  else
    match a.engagement, b.engagement with
    | some ea, some eb => if eb ≠ ea then eb - ea else compareTail a b
    | _, _ => compareTail a b

/-- Embedding of the ordering and truncation step of `fetchBaselineItems`:
the SQL query result is modelled as the candidate row list (in the query
ordering, which the subsequent stable sort re-orders), then
`rows.sort(compareBaselineItems).slice(0, 2)`. When null and non-null
engagements mix, the comparator can tie intransitively and ECMAScript
leaves the sort order implementation-defined; this embedding fixes the
stable insertion sort, which agrees with every stable implementation
whenever the comparator is consistent on the input. -/
def fetchBaselineItems (rows : List BaselineItemRecord) : List BaselineItemRecord :=
  (sortBy (fun a b => decide (compareBaselineItems a b ≤ 0)) rows).take 2

/-- Modelled from the claim wording: engagement precedence with null
sorting after any non-null engagement. -/
def engBeforeClaimed : Option ℤ → Option ℤ → Bool
  | some x, some y => decide (y < x)
  | some _, none => true
  | none, _ => false

/-- Modelled from the claim wording: engagement tie under the claimed
order (equal non-null values, or both null). -/
def engTieClaimed : Option ℤ → Option ℤ → Bool
  | some x, some y => decide (x = y)
  | none, none => true
  | _, _ => false

/-- Modelled from the claim wording: `a` strictly precedes `b` under the
claimed order — evidence grade descending, then origin_count descending,
then engagement descending with null after any non-null, then
published_at descending, then title ascending. -/
def claimedBefore (a b : BaselineItemRecord) : Bool :=
  decide (gradeOrder b.evidence_grade < gradeOrder a.evidence_grade) ||
  (decide (gradeOrder a.evidence_grade = gradeOrder b.evidence_grade) &&
    (decide (b.origin_count < a.origin_count) ||
     (decide (a.origin_count = b.origin_count) &&
       (engBeforeClaimed a.engagement b.engagement ||
        (engTieClaimed a.engagement b.engagement &&
          (strLt b.published_at a.published_at ||
           (decide (a.published_at = b.published_at) && strLt a.title b.title)))))))

/-- Amended engagement precedence: engagement compares only when both
values are non-null. -/
def engBefore : Option ℤ → Option ℤ → Bool
  | some x, some y => decide (y < x)
  | _, _ => false

/-- Amended engagement tie: both non-null and equal, or at least one
null (engagement skipped). -/
def engTie : Option ℤ → Option ℤ → Bool
  | some x, some y => decide (x = y)
  | _, _ => true

/-- Amended-claim order: `a` strictly precedes `b` by evidence grade
descending, then origin_count descending, then engagement descending
applied only when both engagements are non-null (otherwise skipped), then
published_at descending, then title ascending. -/
def amendedBefore (a b : BaselineItemRecord) : Bool :=
  decide (gradeOrder b.evidence_grade < gradeOrder a.evidence_grade) ||
  (decide (gradeOrder a.evidence_grade = gradeOrder b.evidence_grade) &&
    (decide (b.origin_count < a.origin_count) ||
     (decide (a.origin_count = b.origin_count) &&
       (engBefore a.engagement b.engagement ||
        (engTie a.engagement b.engagement &&
          (strLt b.published_at a.published_at ||
           (decide (a.published_at = b.published_at) && strLt a.title b.title)))))))

/-- Tie under the amended order: every compared key agrees (with
engagement skipped when either value is null). -/
def amendedTie (a b : BaselineItemRecord) : Bool :=
  decide (gradeOrder a.evidence_grade = gradeOrder b.evidence_grade) &&
  decide (a.origin_count = b.origin_count) &&
  engTie a.engagement b.engagement &&
  decide (a.published_at = b.published_at) &&
  decide (a.title = b.title)

end Storage

/-! ## Basic facts about `clamp` and `jsRound` -/

theorem clamp_le_hi (value lo hi : ℚ) : clamp value lo hi ≤ hi :=
  min_le_left _ _

theorem lo_le_clamp (value lo hi : ℚ) (h : lo ≤ hi) : lo ≤ clamp value lo hi :=
  le_min h (le_max_left _ _)

theorem jsRound_nonneg (q : ℚ) (h : 0 ≤ q) : 0 ≤ jsRound q := by
  have : (0 : ℚ) ≤ q + 1/2 := by linarith
  exact Int.floor_nonneg.mpr this

theorem jsRound_le_of_le (q b : ℚ) (h : q ≤ b) : jsRound q ≤ jsRound b :=
  Int.floor_le_floor (by linarith)

theorem jsRound_hundred : jsRound 100 = 100 := by
  unfold jsRound
  rw [Int.floor_eq_iff]
  norm_num

theorem calculateBaselineScore_bounds (b : Option Scoring.BaselineCountsInput) :
    0 ≤ Scoring.calculateBaselineScore b ∧ Scoring.calculateBaselineScore b ≤ 10 := by
  unfold Scoring.calculateBaselineScore
  match b with
  | none => norm_num
  | some v =>
    by_cases h : v.clusters_with_baseline ≤ 0
    · simp [h]
    · simp only [h, if_false]
      exact ⟨lo_le_clamp _ _ _ (by norm_num), clamp_le_hi _ _ _⟩

theorem recordGetD_nonneg (r : List (String × ℚ)) (k : String)
    (h : ∀ p ∈ r, 0 ≤ p.2) : 0 ≤ recordGetD r k := by
  unfold recordGetD
  cases hf : r.find? (fun p => p.1 = k) with
  | none => simp
  | some p =>
    have hp := List.mem_of_find?_eq_some hf
    simpa using h p hp

theorem ratio_nonneg (c t : ℚ) (hc : 0 ≤ c) : 0 ≤ Scoring.ratio c t := by
  unfold Scoring.ratio
  by_cases h : t ≤ 0
  · simp [h]
  · simp only [h, if_false]
    exact div_nonneg hc (le_of_lt (lt_of_not_ge h))

/-- C1: every component of `calculateIntegrityScore` lies in its documented
range — timestamp in [0,30], sources in [0,25], independence in [0,20],
evidence in [0,15], baseline in [0,10] — and the returned total
`integrity_score` lies in [0,100], for every input. -/
theorem integrity_components_within_documented_ranges
    (input : Scoring.IntegrityScoreInput) :
    let r := Scoring.calculateIntegrityScore input
    (0 ≤ r.components.timestamp ∧ r.components.timestamp ≤ 30) ∧
    (0 ≤ r.components.sources ∧ r.components.sources ≤ 25) ∧
    (0 ≤ r.components.independence ∧ r.components.independence ≤ 20) ∧
    (0 ≤ r.components.evidence ∧ r.components.evidence ≤ 15) ∧
    (0 ≤ r.components.baseline ∧ r.components.baseline ≤ 10) ∧
    (0 ≤ r.integrity_score ∧ r.integrity_score ≤ 100) := by
  intro r
  have hbase := calculateBaselineScore_bounds input.baseline
  refine ⟨⟨?_, ?_⟩, ⟨?_, ?_⟩, ⟨?_, ?_⟩, ⟨?_, ?_⟩, ⟨?_, ?_⟩, ?_, ?_⟩
  · exact lo_le_clamp _ _ _ (by norm_num)
  · exact clamp_le_hi _ _ _
  · exact lo_le_clamp _ _ _ (by norm_num)
  · exact clamp_le_hi _ _ _
  · exact lo_le_clamp _ _ _ (by norm_num)
  · exact clamp_le_hi _ _ _
  · exact lo_le_clamp _ _ _ (by norm_num)
  · exact clamp_le_hi _ _ _
  · exact hbase.1
  · exact hbase.2
  · exact jsRound_nonneg _ (lo_le_clamp _ _ _ (by norm_num))
  · calc jsRound _ ≤ jsRound 100 := jsRound_le_of_le _ _ (clamp_le_hi _ _ _)
      _ = 100 := jsRound_hundred

/-- C10: whenever the evidence-grade counts are nonnegative (they are
tallies of clusters in the pipeline), the evidence component of
`calculateIntegrityScore` lies in [5,15]: the constant base term `5 +`
keeps it from ever reaching the documented lower bound of 0. -/
theorem evidence_component_at_least_five
    (input : Scoring.IntegrityScoreInput)
    (h : ∀ p ∈ input.evidence_grade_counts.getD [], 0 ≤ p.2) :
    5 ≤ (Scoring.calculateIntegrityScore input).components.evidence ∧
    (Scoring.calculateIntegrityScore input).components.evidence ≤ 15 := by
  have hm : 0 ≤ Scoring.ratio
      (recordGetD (input.evidence_grade_counts.getD []) "multi-confirmed")
      (Scoring.sumCounts (input.evidence_grade_counts.getD [])) :=
    ratio_nonneg _ _ (recordGetD_nonneg _ _ h)
  have hi : 0 ≤ Scoring.ratio
      (recordGetD (input.evidence_grade_counts.getD []) "implementation-confirmed")
      (Scoring.sumCounts (input.evidence_grade_counts.getD [])) :=
    ratio_nonneg _ _ (recordGetD_nonneg _ _ h)
  have key : ∀ a b : ℚ, 0 ≤ a → 0 ≤ b →
      5 ≤ clamp (5 + min 10 (10 * a) + min 5 (5 * b)) 0 15 := by
    intro a b ha hb
    unfold clamp
    have h1 : (0:ℚ) ≤ min 10 (10 * a) := le_min (by norm_num) (by linarith)
    have h2 : (0:ℚ) ≤ min 5 (5 * b) := le_min (by norm_num) (by linarith)
    refine le_min (by norm_num) ?_
    calc (5:ℚ) ≤ 5 + min 10 (10 * a) + min 5 (5 * b) := by linarith
      _ ≤ max 0 (5 + min 10 (10 * a) + min 5 (5 * b)) := le_max_right _ _
  exact ⟨key _ _ hm hi, clamp_le_hi _ _ _⟩

/-! ## Membership in first-occurrence deduplication -/

theorem mem_dedupFirstAux {α : Type} [DecidableEq α] (a : α) (seen : List α)
    (l : List α) : a ∈ dedupFirstAux seen l ↔ a ∈ l ∧ a ∉ seen := by
  induction l generalizing seen with
  | nil => simp [dedupFirstAux]
  | cons b rest ih =>
    simp only [dedupFirstAux]
    by_cases hb : b ∈ seen
    · rw [if_pos hb, ih]
      constructor
      · rintro ⟨h1, h2⟩
        exact ⟨List.mem_cons_of_mem _ h1, h2⟩
      · rintro ⟨h1, h2⟩
        rcases List.mem_cons.mp h1 with h | h
        · exact absurd (h ▸ hb) h2
        · exact ⟨h, h2⟩
    · rw [if_neg hb]
      constructor
      · intro hmem
        rcases List.mem_cons.mp hmem with h | h
        · subst h
          exact ⟨List.mem_cons_self _ _, hb⟩
        · obtain ⟨h1, h2⟩ := (ih _).mp h
          exact ⟨List.mem_cons_of_mem _ h1,
            fun hc => h2 (List.mem_cons_of_mem _ hc)⟩
      · rintro ⟨h1, h2⟩
        by_cases hab : a = b
        · subst hab
          exact List.mem_cons_self _ _
        · rcases List.mem_cons.mp h1 with h | h
          · exact absurd h hab
          · refine List.mem_cons_of_mem _ ((ih _).mpr ⟨h, ?_⟩)
            intro hc
            rcases List.mem_cons.mp hc with h3 | h3
            · exact hab h3
            · exact h2 h3

theorem mem_dedupFirst {α : Type} [DecidableEq α] (a : α) (l : List α) :
    a ∈ dedupFirst l ↔ a ∈ l := by
  simp [dedupFirst, mem_dedupFirstAux]

theorem nodup_dedupFirstAux {α : Type} [DecidableEq α] (seen : List α)
    (l : List α) : (dedupFirstAux seen l).Nodup := by
  induction l generalizing seen with
  | nil => simp [dedupFirstAux]
  | cons b rest ih =>
    simp only [dedupFirstAux]
    by_cases hb : b ∈ seen
    · rw [if_pos hb]
      exact ih seen
    · rw [if_neg hb]
      refine List.nodup_cons.mpr ⟨?_, ih (b :: seen)⟩
      intro hc
      exact ((mem_dedupFirstAux b (b :: seen) rest).mp hc).2 (List.mem_cons_self _ _)

theorem dedupFirst_length_eq_dedup_length {α : Type} [DecidableEq α]
    (l : List α) : (dedupFirst l).length = l.dedup.length := by
  have h1 : (dedupFirst l).Nodup := nodup_dedupFirstAux [] l
  have h2 : (dedupFirst l).toFinset = l.toFinset := by
    ext a
    simp [List.mem_toFinset, mem_dedupFirst]
  calc (dedupFirst l).length = (dedupFirst l).toFinset.card :=
        (List.toFinset_card_of_nodup h1).symm
    _ = l.toFinset.card := by rw [h2]
    _ = l.dedup.length := List.card_toFinset l

theorem seenFilter_map_url (items : List CollectedItem) (seen : List String) :
    (Clustering.seenFilter seen items).map (fun i => i.url) =
      dedupFirstAux seen (items.map (fun i => i.url)) := by
  induction items generalizing seen with
  | nil => simp [Clustering.seenFilter, dedupFirstAux]
  | cons i rest ih =>
    simp only [Clustering.seenFilter, List.map_cons, dedupFirstAux]
    by_cases h : i.url ∈ seen
    · rw [if_pos h, if_pos h]
      exact ih seen
    · rw [if_neg h, if_neg h, List.map_cons]
      rw [ih (i.url :: seen)]

theorem mem_seenFilter_url_not_seen (items : List CollectedItem)
    (seen : List String) (c : CollectedItem)
    (hc : c ∈ Clustering.seenFilter seen items) : c.url ∉ seen := by
  have hmap : c.url ∈ (Clustering.seenFilter seen items).map (fun i => i.url) :=
    List.mem_map_of_mem _ hc
  rw [seenFilter_map_url] at hmap
  exact ((mem_dedupFirstAux _ _ _).mp hmap).2

theorem seenFilter_find (items : List CollectedItem) :
    ∀ (seen : List String) (c : CollectedItem),
      c ∈ Clustering.seenFilter seen items →
      items.find? (fun i => i.url = c.url) = some c := by
  induction items with
  | nil =>
    intro seen c hc
    simp [Clustering.seenFilter] at hc
  | cons i rest ih =>
    intro seen c hc
    simp only [Clustering.seenFilter] at hc
    by_cases h : i.url ∈ seen
    · rw [if_pos h] at hc
      have hne : ¬ (i.url = c.url) := by
        intro heq
        exact (mem_seenFilter_url_not_seen rest seen c hc) (heq ▸ h)
      rw [List.find?_cons_of_neg _ (by simpa using hne), ih seen c hc]
    · rw [if_neg h] at hc
      rcases List.mem_cons.mp hc with h1 | h1
      · subst h1
        rw [List.find?_cons_of_pos _ (by simp)]
      · have hns := mem_seenFilter_url_not_seen rest (i.url :: seen) c h1
        have hne : ¬ (i.url = c.url) := by
          intro heq
          exact hns (List.mem_cons.mpr (Or.inl heq.symm))
        rw [List.find?_cons_of_neg _ (by simpa using hne),
          ih (i.url :: seen) c h1]

/-- C5: `clusterItems` keeps exactly the first record (in input order) for
each distinct URL: output URLs are pairwise distinct and equal (in order)
to the first occurrences of the distinct input URLs, the output length is
the number of distinct input URLs, and each output entry is the first
input record bearing its URL. -/
theorem clusterItems_keeps_first_record_per_distinct_url
    (hashUrl : String → String) (items : List CollectedItem) :
    ((Clustering.clusterItems hashUrl items).map (fun c => c.url)).Nodup ∧
    (Clustering.clusterItems hashUrl items).map (fun c => c.url) =
      dedupFirst (items.map (fun i => i.url)) ∧
    (Clustering.clusterItems hashUrl items).length =
      (items.map (fun i => i.url)).dedup.length ∧
    ∀ c ∈ Clustering.clusterItems hashUrl items,
      items.find? (fun i => i.url = c.url) = some c.toCollectedItem := by
  have hmap : (Clustering.clusterItems hashUrl items).map (fun c => c.url) =
      (Clustering.seenFilter [] items).map (fun i => i.url) := by
    simp [Clustering.clusterItems, List.map_map, Function.comp]
  have hurls : (Clustering.clusterItems hashUrl items).map (fun c => c.url) =
      dedupFirst (items.map (fun i => i.url)) := by
    rw [hmap, seenFilter_map_url]
    rfl
  refine ⟨?_, hurls, ?_, ?_⟩
  · rw [hurls]
    exact nodup_dedupFirstAux [] _
  · have hlen : (Clustering.clusterItems hashUrl items).length =
        ((Clustering.clusterItems hashUrl items).map (fun c => c.url)).length :=
      (List.length_map _ _).symm
    rw [hlen, hurls, dedupFirst_length_eq_dedup_length]
  · intro c hc
    obtain ⟨i, hi, hci⟩ := List.mem_map.mp hc
    have hback : c.toCollectedItem = i := by
      rw [← hci]
      rfl
    have hcu : c.url = i.url := by
      rw [← hci]
    rw [hback, hcu]
    exact seenFilter_find items [] i hi

/-- Closed witness for the C5 theorem: out of three records two of which
share a URL, the surviving entry for the duplicated URL is the first input
record with that URL. -/
theorem clusterItems_keeps_first_record_per_distinct_url_witness :
    ([⟨"first", "https://a.example/x", "s1", none, "hn"⟩,
      ⟨"other", "https://b.example/y", "s2", none, "reddit"⟩,
      ⟨"dup", "https://a.example/x", "s3", none, "web"⟩] : List CollectedItem).find?
      (fun i => i.url =
        (⟨"first", "https://a.example/x", "s1", none, "hn",
          "https://a.example/x"⟩ : Clustering.ClusteredItem).url) =
      some (⟨"first", "https://a.example/x", "s1", none, "hn",
        "https://a.example/x"⟩ : Clustering.ClusteredItem).toCollectedItem :=
  (clusterItems_keeps_first_record_per_distinct_url (fun s => s)
    [⟨"first", "https://a.example/x", "s1", none, "hn"⟩,
     ⟨"other", "https://b.example/y", "s2", none, "reddit"⟩,
     ⟨"dup", "https://a.example/x", "s3", none, "web"⟩]).2.2.2 _ (by decide)

theorem dedupFirstAux_length_le {α : Type} [DecidableEq α] (seen : List α)
    (l : List α) : (dedupFirstAux seen l).length ≤ l.length := by
  induction l generalizing seen with
  | nil => simp [dedupFirstAux]
  | cons b rest ih =>
    simp only [dedupFirstAux]
    by_cases hb : b ∈ seen
    · rw [if_pos hb]
      exact le_trans (ih seen) (Nat.le_succ _)
    · rw [if_neg hb]
      simpa using ih (b :: seen)

theorem dedupFirst_ne_nil {α : Type} [DecidableEq α] (l : List α)
    (h : l ≠ []) : dedupFirst l ≠ [] := by
  match l with
  | [] => exact absurd rfl h
  | a :: rest =>
    simp [dedupFirst, dedupFirstAux]

theorem addToGroups_items_ne_nil
    (groups : List (String × String × List IdeaClustering.PreparedEntry))
    (e : IdeaClustering.PreparedEntry)
    (h : ∀ g ∈ groups, g.2.2 ≠ []) :
    ∀ g ∈ IdeaClustering.addToGroups groups e, g.2.2 ≠ [] := by
  induction groups with
  | nil =>
    intro g hg
    simp only [IdeaClustering.addToGroups, List.mem_singleton] at hg
    subst hg
    simp
  | cons p rest ih =>
    obtain ⟨id, label, es⟩ := p
    intro g hg
    simp only [IdeaClustering.addToGroups] at hg
    by_cases hid : id = e.idea_cluster_id
    · rw [if_pos hid] at hg
      rcases List.mem_cons.mp hg with h1 | h1
      · subst h1
        simp
      · exact h g (List.mem_cons_of_mem _ h1)
    · rw [if_neg hid] at hg
      rcases List.mem_cons.mp hg with h1 | h1
      · subst h1
        exact h _ (List.mem_cons_self _ _)
      · exact ih (fun g2 hg2 => h g2 (List.mem_cons_of_mem _ hg2)) g h1

theorem groupEntries_items_ne_nil (entries : List IdeaClustering.PreparedEntry) :
    ∀ g ∈ IdeaClustering.groupEntries entries, g.2.2 ≠ [] := by
  have main : ∀ (es : List IdeaClustering.PreparedEntry)
      (init : List (String × String × List IdeaClustering.PreparedEntry)),
      (∀ g ∈ init, g.2.2 ≠ []) →
      ∀ g ∈ es.foldl IdeaClustering.addToGroups init, g.2.2 ≠ [] := by
    intro es
    induction es with
    | nil =>
      intro init h
      simpa using h
    | cons e rest ih =>
      intro init h
      exact ih _ (addToGroups_items_ne_nil init e h)
  exact main entries [] (by simp)

theorem echoRisk_core (oc ic : ℕ) (h1 : 1 ≤ oc) (h2 : oc ≤ ic) :
    clamp01 (1 - (oc : ℚ) / (ic : ℚ)) = 1 - (oc : ℚ) / (ic : ℚ) ∧
    0 ≤ 1 - (oc : ℚ) / (ic : ℚ) ∧ 1 - (oc : ℚ) / (ic : ℚ) ≤ 1 ∧
    (1 - (oc : ℚ) / (ic : ℚ) = 0 ↔ oc = ic) := by
  have hic : 0 < ic := lt_of_lt_of_le h1 h2
  have hicq : (0 : ℚ) < (ic : ℚ) := by exact_mod_cast hic
  have hle : (oc : ℚ) ≤ (ic : ℚ) := by exact_mod_cast h2
  have hdiv1 : (oc : ℚ) / (ic : ℚ) ≤ 1 := (div_le_one hicq).mpr hle
  have hdiv0 : 0 ≤ (oc : ℚ) / (ic : ℚ) := by positivity
  refine ⟨?_, by linarith, by linarith, ?_, ?_⟩
  · unfold clamp01 clamp
    rw [max_eq_right (by linarith), min_eq_right (by linarith)]
  · intro h
    have hone : (oc : ℚ) / (ic : ℚ) = 1 := by linarith
    rw [div_eq_one_iff_eq (ne_of_gt hicq)] at hone
    exact_mod_cast hone
  · intro h
    subst h
    rw [div_self (ne_of_gt hicq)]
    ring

/-- C2: every cluster summary produced by `clusterIdeas` has
`0 ≤ echo_risk ≤ 1`, and `echo_risk = 0` iff `origin_count = item_count`
(clusters are non-empty by construction). -/
theorem clusterIdeas_echo_risk_bounds (hashVal extractHost : String → String)
    (items : List Clustering.ClusteredItem)
    (s : IdeaClustering.IdeaClusterSummary)
    (hs : s ∈ (IdeaClustering.clusterIdeas hashVal extractHost items).2) :
    0 ≤ s.echo_risk ∧ s.echo_risk ≤ 1 ∧
    (s.echo_risk = 0 ↔ s.origin_count = s.item_count) := by
  have hs2 : s ∈ (IdeaClustering.groupEntries
      (items.map (IdeaClustering.prepare hashVal extractHost))).map
      IdeaClustering.summarize := hs
  obtain ⟨g, hg, rfl⟩ := List.mem_map.mp hs2
  have hne : g.2.2 ≠ [] := groupEntries_items_ne_nil _ g hg
  have hmapne : g.2.2.map (fun e => e.origin_id) ≠ [] := by
    simpa using hne
  have h1 : 1 ≤ (dedupFirst (g.2.2.map (fun e => e.origin_id))).length := by
    have := dedupFirst_ne_nil _ hmapne
    exact List.length_pos.mpr this
  have h2 : (dedupFirst (g.2.2.map (fun e => e.origin_id))).length ≤
      g.2.2.length := by
    calc (dedupFirst (g.2.2.map (fun e => e.origin_id))).length ≤
        (g.2.2.map (fun e => e.origin_id)).length :=
          dedupFirstAux_length_le [] _
      _ = g.2.2.length := List.length_map _ _
  have core := echoRisk_core _ _ h1 h2
  refine ⟨?_, ?_, ?_⟩
  · show 0 ≤ clamp01 _
    rw [core.1]
    exact core.2.1
  · show clamp01 _ ≤ 1
    rw [core.1]
    exact core.2.2.1
  · show clamp01 _ = 0 ↔ _
    rw [core.1]
    exact core.2.2.2

theorem clusterIdeas_item_cluster_id (hashVal extractHost : String → String)
    (items : List Clustering.ClusteredItem) :
    ∀ o ∈ (IdeaClustering.clusterIdeas hashVal extractHost items).1,
      o.idea_cluster_id =
        hashVal (IdeaClustering.buildSignature o.title o.snippet).1 := by
  intro o ho
  have ho2 : o ∈ (items.map (IdeaClustering.prepare hashVal extractHost)).map
      (IdeaClustering.annotate
        ((IdeaClustering.groupEntries
          (items.map (IdeaClustering.prepare hashVal extractHost))).map
          IdeaClustering.summarize)) := ho
  obtain ⟨e, he1, rfl⟩ := List.mem_map.mp ho2
  obtain ⟨item, _, rfl⟩ := List.mem_map.mp he1
  rfl

/-- C6: any two output records of `clusterIdeas` whose concatenated title
and snippet yield the same signature-generating tokens (lower-casing,
alphanumeric tokenization, dropping short tokens and stop-words, top-5
frequency selection with lexicographic tie-break) receive the same
`idea_cluster_id`, regardless of source or URL. -/
theorem clusterIdeas_same_tokens_same_cluster_id
    (hashVal extractHost : String → String)
    (items : List Clustering.ClusteredItem)
    (o1 o2 : IdeaClustering.IdeaClusteredItem)
    (h1 : o1 ∈ (IdeaClustering.clusterIdeas hashVal extractHost items).1)
    (h2 : o2 ∈ (IdeaClustering.clusterIdeas hashVal extractHost items).1)
    (htok : IdeaClustering.topSignatureTokens o1.title o1.snippet =
      IdeaClustering.topSignatureTokens o2.title o2.snippet) :
    o1.idea_cluster_id = o2.idea_cluster_id := by
  rw [clusterIdeas_item_cluster_id hashVal extractHost items o1 h1,
    clusterIdeas_item_cluster_id hashVal extractHost items o2 h2]
  congr 1
  simp only [IdeaClustering.buildSignature]
  rw [htok]

/-- Closed witness for the C2 theorem on a two-record cluster of the same
idea from two different origins. -/
theorem clusterIdeas_echo_risk_bounds_witness :
    0 ≤ (IdeaClustering.summarize ("async|rust", "async rust",
      [⟨⟨"Rust Async", "https://a.example/x", "", none, "hn", "c1"⟩,
        "async|rust", "async rust", "async|rust",
        "https://a.example/x|async|rust"⟩,
       ⟨⟨"async rust", "https://b.example/y", "", none, "reddit", "c2"⟩,
        "async|rust", "async rust", "async|rust",
        "https://b.example/y|async|rust"⟩])).echo_risk ∧
    (IdeaClustering.summarize ("async|rust", "async rust",
      [⟨⟨"Rust Async", "https://a.example/x", "", none, "hn", "c1"⟩,
        "async|rust", "async rust", "async|rust",
        "https://a.example/x|async|rust"⟩,
       ⟨⟨"async rust", "https://b.example/y", "", none, "reddit", "c2"⟩,
        "async|rust", "async rust", "async|rust",
        "https://b.example/y|async|rust"⟩])).echo_risk ≤ 1 ∧
    ((IdeaClustering.summarize ("async|rust", "async rust",
      [⟨⟨"Rust Async", "https://a.example/x", "", none, "hn", "c1"⟩,
        "async|rust", "async rust", "async|rust",
        "https://a.example/x|async|rust"⟩,
       ⟨⟨"async rust", "https://b.example/y", "", none, "reddit", "c2"⟩,
        "async|rust", "async rust", "async|rust",
        "https://b.example/y|async|rust"⟩])).echo_risk = 0 ↔
      (IdeaClustering.summarize ("async|rust", "async rust",
        [⟨⟨"Rust Async", "https://a.example/x", "", none, "hn", "c1"⟩,
          "async|rust", "async rust", "async|rust",
          "https://a.example/x|async|rust"⟩,
         ⟨⟨"async rust", "https://b.example/y", "", none, "reddit", "c2"⟩,
          "async|rust", "async rust", "async|rust",
          "https://b.example/y|async|rust"⟩])).origin_count =
      (IdeaClustering.summarize ("async|rust", "async rust",
        [⟨⟨"Rust Async", "https://a.example/x", "", none, "hn", "c1"⟩,
          "async|rust", "async rust", "async|rust",
          "https://a.example/x|async|rust"⟩,
         ⟨⟨"async rust", "https://b.example/y", "", none, "reddit", "c2"⟩,
          "async|rust", "async rust", "async|rust",
          "https://b.example/y|async|rust"⟩])).item_count) :=
  clusterIdeas_echo_risk_bounds (fun s => s) (fun s => s)
    [⟨"Rust Async", "https://a.example/x", "", none, "hn", "c1"⟩,
     ⟨"async rust", "https://b.example/y", "", none, "reddit", "c2"⟩]
    _ (List.mem_map_of_mem IdeaClustering.summarize (by decide))

/-- Closed witness for the C6 theorem: two records with permuted title
tokens, different URLs and different sources land in the same idea
cluster. -/
theorem clusterIdeas_same_tokens_same_cluster_id_witness :
    (IdeaClustering.annotate
      ((IdeaClustering.groupEntries
        ([⟨"Rust Async", "https://a.example/x", "", none, "hn", "c1"⟩,
          ⟨"async rust", "https://b.example/y", "", none, "reddit", "c2"⟩].map
          (IdeaClustering.prepare (fun s => s) (fun s => s)))).map
        IdeaClustering.summarize)
      ⟨⟨"Rust Async", "https://a.example/x", "", none, "hn", "c1"⟩,
        "async|rust", "async rust", "async|rust",
        "https://a.example/x|async|rust"⟩).idea_cluster_id =
    (IdeaClustering.annotate
      ((IdeaClustering.groupEntries
        ([⟨"Rust Async", "https://a.example/x", "", none, "hn", "c1"⟩,
          ⟨"async rust", "https://b.example/y", "", none, "reddit", "c2"⟩].map
          (IdeaClustering.prepare (fun s => s) (fun s => s)))).map
        IdeaClustering.summarize)
      ⟨⟨"async rust", "https://b.example/y", "", none, "reddit", "c2"⟩,
        "async|rust", "async rust", "async|rust",
        "https://b.example/y|async|rust"⟩).idea_cluster_id :=
  clusterIdeas_same_tokens_same_cluster_id (fun s => s) (fun s => s)
    [⟨"Rust Async", "https://a.example/x", "", none, "hn", "c1"⟩,
     ⟨"async rust", "https://b.example/y", "", none, "reddit", "c2"⟩]
    _ _
    (List.mem_map_of_mem _ (by decide))
    (List.mem_map_of_mem _ (by decide))
    (by decide)

/-- C7 counterexample: for a non-null but empty `published_at`, which no
parse function can parse, `isWithinWindow` returns `true`, not `false` as
the claim states — the JavaScript falsy guard treats the empty string like
`null`. -/
theorem isWithinWindow_empty_string_counterexample :
    (fun _ : String => (none : Option ℚ)) "" = none ∧
    Clustering.isWithinWindow (fun _ => none) 0 (some "") 7 = true := by
  exact ⟨rfl, rfl⟩

/-- C7 (amended): `isWithinWindow` returns `true` when `published_at` is
null or the empty string; returns `false` when `published_at` is a
non-empty unparseable string; and for a parseable non-empty string returns
`true` iff `now − published_at ≤ window_days` converted to milliseconds. -/
theorem isWithinWindow_characterization
    (parseDate : String → Option ℚ) (now windowDays : ℚ) :
    (Clustering.isWithinWindow parseDate now none windowDays = true) ∧
    (Clustering.isWithinWindow parseDate now (some "") windowDays = true) ∧
    (∀ s : String, s ≠ "" → parseDate s = none →
      Clustering.isWithinWindow parseDate now (some s) windowDays = false) ∧
    (∀ (s : String) (t : ℚ), s ≠ "" → parseDate s = some t →
      (Clustering.isWithinWindow parseDate now (some s) windowDays = true ↔
        now - t ≤ windowDays * (24 * 60 * 60 * 1000))) := by
  refine ⟨rfl, rfl, ?_, ?_⟩
  · intro s hs hp
    simp [Clustering.isWithinWindow, hs, hp]
  · intro s t hs hp
    simp [Clustering.isWithinWindow, hs, hp]

/-- Closed witness for the amended C7 theorem at a concrete parse function,
clock and window. -/
theorem isWithinWindow_characterization_witness :
    Clustering.isWithinWindow (fun s => if s = "d1" then some 1000 else none)
      605000000 none 7 = true ∧
    Clustering.isWithinWindow (fun s => if s = "d1" then some 1000 else none)
      605000000 (some "junk") 7 = false ∧
    (Clustering.isWithinWindow (fun s => if s = "d1" then some 1000 else none)
      605000000 (some "d1") 7 = true ↔
      (605000000 : ℚ) - 1000 ≤ 7 * (24 * 60 * 60 * 1000)) := by
  have h := isWithinWindow_characterization
    (fun s => if s = "d1" then some 1000 else none) 605000000 7
  exact ⟨h.1, h.2.2.1 "junk" (by decide) (by simp), h.2.2.2 "d1" 1000 (by decide) (by simp)⟩

/-- C4: when zero records are collected, the engine-core computation does
not fail: the integrity score is 0 and the flag list contains
`no_sources`. -/
theorem zero_records_scores_zero_with_no_sources_flag
    (parseDate : String → Option ℚ) (now windowDays : ℚ)
    (collected : List CollectedItem) (collectorFlags : List String)
    (h : collected = []) :
    (Engine.runEngineScore parseDate now windowDays collected collectorFlags).1 = 0 ∧
    "no_sources" ∈ (Engine.runEngineScore parseDate now windowDays collected collectorFlags).2 := by
  subst h
  constructor
  · simp [Engine.runEngineScore, Engine.calculateIntegrityScore]
  · show "no_sources" ∈ Engine.mergeFlags (Engine.buildFlags 0 0) collectorFlags
    rw [Engine.mergeFlags, mem_dedupFirst]
    simp [Engine.buildFlags]

/-- Closed witness for the C4 theorem on an empty collection with a failed
collector flag present. -/
theorem zero_records_scores_zero_with_no_sources_flag_witness :
    (Engine.runEngineScore (fun _ => none) 0 30 [] ["HN_FETCH_FAILED"]).1 = 0 ∧
    "no_sources" ∈ (Engine.runEngineScore (fun _ => none) 0 30 [] ["HN_FETCH_FAILED"]).2 :=
  zero_records_scores_zero_with_no_sources_flag (fun _ => none) 0 30 [] ["HN_FETCH_FAILED"] rfl

/-- C9: `insertRun` is idempotent per run identifier — when a run row with
the same id already exists, the database state is returned unchanged: no
run row is overwritten and no item rows are appended. -/
theorem insertRun_existing_id_leaves_state_unchanged
    (state : Storage.DbState) (run : Storage.RunRecord)
    (items : List Storage.ItemRecord)
    (h : ∃ row ∈ state.runs, row.id = run.id) :
    Storage.insertRun state run items = state := by
  unfold Storage.insertRun
  have : (state.runs.find? (fun row => row.id = run.id)).isSome := by
    rw [List.find?_isSome]
    obtain ⟨row, hrow, hid⟩ := h
    exact ⟨row, hrow, by simp [hid]⟩
  simp [this]

/-- Closed witness for the C9 theorem: re-submitting an existing run id is
a no-op on a concrete database state. -/
theorem insertRun_existing_id_leaves_state_unchanged_witness :
    Storage.insertRun
      { runs := [{ id := "2024-01-02-ai-abc123", query := "ai", window_days := 30,
                   target := "gpt", mode := "quick", created_at := "2024-01-02T00:00:00Z",
                   integrity_score := 80, flags := "" }]
        items := [] }
      { id := "2024-01-02-ai-abc123", query := "ai", window_days := 30,
        target := "gpt", mode := "quick", created_at := "2024-01-02T01:00:00Z",
        integrity_score := 75, flags := ["no_sources"] }
      [{ run_id := "2024-01-02-ai-abc123", title := "t", url := "u", snippet := "s",
         published_at := none, source := "hn", cluster_id := "c",
         idea_cluster_id := "i", evidence_grade := "discussion-only",
         origin_count := 1, engagement := none, timestamp_tier := "T4" }] =
      { runs := [{ id := "2024-01-02-ai-abc123", query := "ai", window_days := 30,
                   target := "gpt", mode := "quick", created_at := "2024-01-02T00:00:00Z",
                   integrity_score := 80, flags := "" }]
        items := [] } :=
  insertRun_existing_id_leaves_state_unchanged _ _ _
    ⟨_, List.mem_singleton.mpr rfl, rfl⟩

/-! ## Order facts for the JavaScript code-unit string comparison -/

theorem char_toNat_inj (a b : Char) (h : a.toNat = b.toNat) : a = b := by
  unfold Char.toNat at h
  have hv : a.val = b.val := UInt32.toNat.inj h
  exact Char.ext hv

theorem string_data_inj (a b : String) (h : a.data = b.data) : a = b := by
  cases a
  cases b
  simp_all

theorem listCharLt_irrefl (l : List Char) : listCharLt l l = false := by
  induction l with
  | nil => rfl
  | cons a as ih => simp [listCharLt, ih]

theorem listCharLt_trichotomy :
    ∀ as bs : List Char, as = bs ∨ listCharLt as bs = true ∨ listCharLt bs as = true := by
  intro as
  induction as with
  | nil =>
    intro bs
    cases bs with
    | nil => exact Or.inl rfl
    | cons b bs => exact Or.inr (Or.inl rfl)
  | cons a as ih =>
    intro bs
    cases bs with
    | nil => exact Or.inr (Or.inr rfl)
    | cons b bs =>
      by_cases h1 : a.toNat < b.toNat
      · exact Or.inr (Or.inl (by simp [listCharLt, h1]))
      · by_cases h2 : b.toNat < a.toNat
        · exact Or.inr (Or.inr (by simp [listCharLt, h2]))
        · have heq : a = b := char_toNat_inj a b (by omega)
          rcases ih bs with h | h | h
          · exact Or.inl (by rw [heq, h])
          · exact Or.inr (Or.inl (by simp [listCharLt, h1, h2, h]))
          · exact Or.inr (Or.inr (by simp [listCharLt, h1, h2, h]))

theorem strLt_irrefl (s : String) : strLt s s = false := listCharLt_irrefl _

theorem strLt_trichotomy (a b : String) :
    a = b ∨ strLt a b = true ∨ strLt b a = true := by
  rcases listCharLt_trichotomy a.data b.data with h | h | h
  · exact Or.inl (string_data_inj a b h)
  · exact Or.inr (Or.inl h)
  · exact Or.inr (Or.inr h)

theorem strLt_self_eq_false_of_eq (a b : String) (h : a = b) :
    strLt a b = false := by
  rw [h]
  exact strLt_irrefl b

theorem localeCompare_neg_iff (a b : String) :
    Storage.localeCompare a b < 0 ↔ strLt a b = true := by
  unfold Storage.localeCompare
  by_cases h1 : strLt a b
  · simp [h1]
  · by_cases h2 : strLt b a <;> simp [h1, h2]

theorem localeCompare_eq_zero_iff (a b : String) :
    Storage.localeCompare a b = 0 ↔ a = b := by
  unfold Storage.localeCompare
  by_cases h1 : strLt a b
  · simp only [h1, if_true]
    constructor
    · intro h
      exact absurd h (by norm_num)
    · intro h
      rw [strLt_self_eq_false_of_eq a b h] at h1
      exact absurd h1 (by simp)
  · by_cases h2 : strLt b a
    · simp only [h1, if_false, h2, if_true]
      constructor
      · intro h
        exact absurd h (by norm_num)
      · intro h
        rw [strLt_self_eq_false_of_eq b a h.symm] at h2
        exact absurd h2 (by simp)
    · simp only [h1, if_false, h2]
      constructor
      · intro _
        rcases strLt_trichotomy a b with h | h | h
        · exact h
        · exact absurd h (by simp [h1])
        · exact absurd h (by simp [h2])
      · intro _
        rfl

theorem compareTail_neg_iff (a b : Storage.BaselineItemRecord) :
    Storage.compareTail a b < 0 ↔
      (strLt b.published_at a.published_at = true ∨
        (a.published_at = b.published_at ∧ strLt a.title b.title = true)) := by
  unfold Storage.compareTail
  by_cases hp : a.published_at ≠ b.published_at
  · rw [if_pos hp, localeCompare_neg_iff]
    constructor
    · exact Or.inl
    · rintro (h | ⟨h, _⟩)
      · exact h
      · exact absurd h hp
  · push_neg at hp
    rw [if_neg (by simp [hp]), localeCompare_neg_iff]
    constructor
    · intro h
      exact Or.inr ⟨hp, h⟩
    · rintro (h | ⟨_, h⟩)
      · rw [hp, strLt_irrefl] at h
        exact absurd h (by simp)
      · exact h

theorem compareTail_eq_zero_iff (a b : Storage.BaselineItemRecord) :
    Storage.compareTail a b = 0 ↔
      (a.published_at = b.published_at ∧ a.title = b.title) := by
  unfold Storage.compareTail
  by_cases hp : a.published_at ≠ b.published_at
  · rw [if_pos hp, localeCompare_eq_zero_iff]
    constructor
    · intro h
      exact absurd h.symm hp
    · rintro ⟨h, _⟩
      exact absurd h hp
  · push_neg at hp
    rw [if_neg (by simp [hp]), localeCompare_eq_zero_iff]
    constructor
    · intro h
      exact ⟨hp, h⟩
    · rintro ⟨_, h⟩
      exact h

theorem compareBaselineItems_neg_iff (a b : Storage.BaselineItemRecord) :
    Storage.compareBaselineItems a b < 0 ↔ Storage.amendedBefore a b = true := by
  unfold Storage.compareBaselineItems
  simp only [Storage.amendedBefore, Bool.or_eq_true, Bool.and_eq_true,
    decide_eq_true_eq]
  by_cases hg : Storage.gradeOrder b.evidence_grade - Storage.gradeOrder a.evidence_grade ≠ 0
  · rw [if_pos hg]
    constructor
    · intro h
      exact Or.inl (by omega)
    · rintro (h | ⟨heq, _⟩)
      · omega
      · omega
  · rw [if_neg hg]
    push_neg at hg
    have hgeq : Storage.gradeOrder a.evidence_grade = Storage.gradeOrder b.evidence_grade := by omega
    by_cases ho : b.origin_count ≠ a.origin_count
    · rw [if_pos ho]
      constructor
      · intro h
        exact Or.inr ⟨hgeq, Or.inl (by omega)⟩
      · rintro (h | ⟨_, h | ⟨heq, _⟩⟩)
        · omega
        · omega
        · omega
    · rw [if_neg ho]
      push_neg at ho
      cases ha : a.engagement with
      | none =>
        cases hb : b.engagement with
        | none =>
          simp only [Storage.engBefore, Storage.engTie]
          rw [compareTail_neg_iff]
          constructor
          · intro h
            exact Or.inr ⟨hgeq, Or.inr ⟨ho.symm, Or.inr ⟨trivial, h⟩⟩⟩
          · rintro (h | ⟨_, h | ⟨_, h | ⟨_, h⟩⟩⟩)
            · omega
            · omega
            · exact absurd h (by simp)
            · exact h
        | some eb =>
          simp only [Storage.engBefore, Storage.engTie]
          rw [compareTail_neg_iff]
          constructor
          · intro h
            exact Or.inr ⟨hgeq, Or.inr ⟨ho.symm, Or.inr ⟨trivial, h⟩⟩⟩
          · rintro (h | ⟨_, h | ⟨_, h | ⟨_, h⟩⟩⟩)
            · omega
            · omega
            · exact absurd h (by simp)
            · exact h
      | some ea =>
        cases hb : b.engagement with
        | none =>
          simp only [Storage.engBefore, Storage.engTie]
          rw [compareTail_neg_iff]
          constructor
          · intro h
            exact Or.inr ⟨hgeq, Or.inr ⟨ho.symm, Or.inr ⟨trivial, h⟩⟩⟩
          · rintro (h | ⟨_, h | ⟨_, h | ⟨_, h⟩⟩⟩)
            · omega
            · omega
            · exact absurd h (by simp)
            · exact h
        | some eb =>
          simp only [Storage.engBefore, Storage.engTie, decide_eq_true_eq]
          by_cases he : eb ≠ ea
          · rw [if_pos he]
            constructor
            · intro h
              exact Or.inr ⟨hgeq, Or.inr ⟨ho.symm, Or.inl (by omega)⟩⟩
            · rintro (h | ⟨_, h | ⟨_, h | ⟨heq2, _⟩⟩⟩)
              · omega
              · omega
              · omega
              · omega
          · rw [if_neg he]
            push_neg at he
            rw [compareTail_neg_iff]
            constructor
            · intro h
              exact Or.inr ⟨hgeq, Or.inr ⟨ho.symm, Or.inr ⟨he.symm, h⟩⟩⟩
            · rintro (h | ⟨_, h | ⟨_, h | ⟨_, h⟩⟩⟩)
              · omega
              · omega
              · omega
              · exact h

theorem compareBaselineItems_eq_zero_iff (a b : Storage.BaselineItemRecord) :
    Storage.compareBaselineItems a b = 0 ↔ Storage.amendedTie a b = true := by
  unfold Storage.compareBaselineItems
  simp only [Storage.amendedTie, Bool.and_eq_true, decide_eq_true_eq]
  by_cases hg : Storage.gradeOrder b.evidence_grade - Storage.gradeOrder a.evidence_grade ≠ 0
  · rw [if_pos hg]
    constructor
    · intro h
      omega
    · rintro ⟨⟨⟨⟨h1, _⟩, _⟩, _⟩, _⟩
      omega
  · rw [if_neg hg]
    push_neg at hg
    have hgeq : Storage.gradeOrder a.evidence_grade = Storage.gradeOrder b.evidence_grade := by
      omega
    by_cases ho : b.origin_count ≠ a.origin_count
    · rw [if_pos ho]
      constructor
      · intro h
        omega
      · rintro ⟨⟨⟨⟨_, h2⟩, _⟩, _⟩, _⟩
        omega
    · rw [if_neg ho]
      push_neg at ho
      cases ha : a.engagement with
      | none =>
        cases hb : b.engagement with
        | none =>
          simp only [Storage.engTie]
          rw [compareTail_eq_zero_iff]
          constructor
          · rintro ⟨h1, h2⟩
            exact ⟨⟨⟨⟨hgeq, ho.symm⟩, trivial⟩, h1⟩, h2⟩
          · rintro ⟨⟨⟨⟨_, _⟩, _⟩, h4⟩, h5⟩
            exact ⟨h4, h5⟩
        | some eb =>
          simp only [Storage.engTie]
          rw [compareTail_eq_zero_iff]
          constructor
          · rintro ⟨h1, h2⟩
            exact ⟨⟨⟨⟨hgeq, ho.symm⟩, trivial⟩, h1⟩, h2⟩
          · rintro ⟨⟨⟨⟨_, _⟩, _⟩, h4⟩, h5⟩
            exact ⟨h4, h5⟩
      | some ea =>
        cases hb : b.engagement with
        | none =>
          simp only [Storage.engTie]
          rw [compareTail_eq_zero_iff]
          constructor
          · rintro ⟨h1, h2⟩
            exact ⟨⟨⟨⟨hgeq, ho.symm⟩, trivial⟩, h1⟩, h2⟩
          · rintro ⟨⟨⟨⟨_, _⟩, _⟩, h4⟩, h5⟩
            exact ⟨h4, h5⟩
        | some eb =>
          simp only [Storage.engTie, decide_eq_true_eq]
          by_cases he : eb ≠ ea
          · rw [if_pos he]
            constructor
            · intro h
              omega
            · rintro ⟨⟨⟨⟨_, _⟩, h3⟩, _⟩, _⟩
              omega
          · rw [if_neg he]
            push_neg at he
            rw [compareTail_eq_zero_iff]
            constructor
            · rintro ⟨h1, h2⟩
              exact ⟨⟨⟨⟨hgeq, ho.symm⟩, he.symm⟩, h1⟩, h2⟩
            · rintro ⟨⟨⟨⟨_, _⟩, _⟩, h4⟩, h5⟩
              exact ⟨h4, h5⟩

/-- C3 (amended): `compareBaselineItems` orders candidates by evidence
grade descending, then origin_count descending, then engagement
descending applied only when both engagements are non-null (a null
engagement on either side skips the engagement comparison instead of
sorting after non-null values), then published_at descending, then title
ascending; and `fetchBaselineItems` returns at most the top 2 of that
order. -/
theorem fetchBaselineItems_top2_of_amended_order :
    (∀ a b : Storage.BaselineItemRecord,
      (Storage.compareBaselineItems a b < 0 ↔ Storage.amendedBefore a b = true) ∧
      (Storage.compareBaselineItems a b = 0 ↔ Storage.amendedTie a b = true)) ∧
    (∀ rows : List Storage.BaselineItemRecord,
      Storage.fetchBaselineItems rows =
        (sortBy (fun a b => Storage.amendedBefore a b || Storage.amendedTie a b) rows).take 2 ∧
      (Storage.fetchBaselineItems rows).length ≤ 2) := by
  have hle : (fun a b : Storage.BaselineItemRecord =>
      decide (Storage.compareBaselineItems a b ≤ 0)) =
      (fun a b => Storage.amendedBefore a b || Storage.amendedTie a b) := by
    funext a b
    rcases hcmp : Storage.amendedBefore a b || Storage.amendedTie a b with _ | _
    · simp only [Bool.or_eq_false_iff] at hcmp
      have h1 : ¬ Storage.compareBaselineItems a b < 0 := by
        rw [compareBaselineItems_neg_iff]
        simp [hcmp.1]
      have h2 : ¬ Storage.compareBaselineItems a b = 0 := by
        rw [compareBaselineItems_eq_zero_iff]
        simp [hcmp.2]
      simp only [decide_eq_false_iff_not]
      omega
    · simp only [Bool.or_eq_true] at hcmp
      rcases hcmp with h | h
      · have := (compareBaselineItems_neg_iff a b).mpr h
        simp only [decide_eq_true_eq]
        omega
      · have := (compareBaselineItems_eq_zero_iff a b).mpr h
        simp only [decide_eq_true_eq]
        omega
  refine ⟨fun a b => ⟨compareBaselineItems_neg_iff a b,
    compareBaselineItems_eq_zero_iff a b⟩, fun rows => ⟨?_, ?_⟩⟩
  · unfold Storage.fetchBaselineItems
    rw [hle]
  · unfold Storage.fetchBaselineItems
    exact List.length_take_le 2 _

/-- C3 counterexample: with two candidates of equal grade and
origin_count, one with null engagement but later published_at and one
with non-null engagement but earlier published_at, the claimed order
(nulls sort after any non-null engagement) puts the engaged record first,
but `fetchBaselineItems` returns the null-engagement record first: the
comparator skips engagement entirely when either side is null and falls
through to published_at. -/
theorem fetchBaselineItems_null_engagement_counterexample :
    Storage.claimedBefore
      ⟨"engaged", "u2", "2024-01-01T00:00:00.000Z", "hn", "discussion-only", 1, some 100⟩
      ⟨"null-engagement", "u1", "2024-02-01T00:00:00.000Z", "hn", "discussion-only", 1, none⟩ = true ∧
    Storage.fetchBaselineItems
      [⟨"null-engagement", "u1", "2024-02-01T00:00:00.000Z", "hn", "discussion-only", 1, none⟩,
       ⟨"engaged", "u2", "2024-01-01T00:00:00.000Z", "hn", "discussion-only", 1, some 100⟩] =
      [⟨"null-engagement", "u1", "2024-02-01T00:00:00.000Z", "hn", "discussion-only", 1, none⟩,
       ⟨"engaged", "u2", "2024-01-01T00:00:00.000Z", "hn", "discussion-only", 1, some 100⟩] := by
  constructor
  · decide
  · decide

/-! ## Character-level facts for `normalizeQuery` and `slugify` -/

theorem char_toNat_ofNat_small (n : ℕ) (h : n < 55296) :
    (Char.ofNat n).toNat = n := by
  have hv : n.isValidChar := Or.inl h
  rw [Char.ofNat, dif_pos hv]
  rfl

theorem lowerChar_toNat (c : Char) :
    (lowerChar c).toNat =
      if 65 ≤ c.toNat ∧ c.toNat ≤ 90 then c.toNat + 32 else c.toNat := by
  unfold lowerChar
  by_cases h : 65 ≤ c.toNat ∧ c.toNat ≤ 90
  · rw [if_pos h, if_pos h]
    exact char_toNat_ofNat_small _ (by omega)
  · rw [if_neg h, if_neg h]

theorem lowerChar_idem (c : Char) : lowerChar (lowerChar c) = lowerChar c := by
  have h1 := lowerChar_toNat c
  by_cases h : 65 ≤ c.toNat ∧ c.toNat ≤ 90
  · rw [if_pos h] at h1
    show (if 65 ≤ (lowerChar c).toNat ∧ (lowerChar c).toNat ≤ 90 then _ else lowerChar c) = _
    rw [if_neg (by omega)]
  · rw [if_neg h] at h1
    show (if 65 ≤ (lowerChar c).toNat ∧ (lowerChar c).toNat ≤ 90 then _ else lowerChar c) = _
    rw [if_neg (by omega)]

theorem isWsChar_lowerChar (c : Char) : Engine.isWsChar (lowerChar c) = Engine.isWsChar c := by
  have h1 := lowerChar_toNat c
  unfold Engine.isWsChar
  by_cases h : 65 ≤ c.toNat ∧ c.toNat ≤ 90
  · rw [if_pos h] at h1
    rw [h1]
    exact decide_eq_decide.mpr (by omega)
  · rw [if_neg h] at h1
    rw [h1]

theorem ws_not_alnum (c : Char) (h : Engine.isWsChar c = true) :
    isAlnumChar c = false := by
  simp only [Engine.isWsChar, decide_eq_true_eq] at h
  simp only [isAlnumChar, decide_eq_false_iff_not]
  omega

theorem alnum_ne_dash (c : Char) (h : isAlnumChar c = true) : c ≠ '-' := by
  intro heq
  subst heq
  exact absurd h (by decide)

theorem space_not_alnum : isAlnumChar ' ' = false := by decide

theorem lowerChar_space : lowerChar ' ' = ' ' := by decide

/-! ## Behaviour of the slug run-replacement under whitespace collapsing,
trimming and lower-casing -/

theorem repRunsAux_collapseWsAux (l : List Char) :
    ∀ b1 b2 : Bool, (b2 = true → b1 = true) →
      Engine.repRunsAux b1 (Engine.collapseWsAux b2 l) = Engine.repRunsAux b1 l := by
  induction l with
  | nil =>
    intro b1 b2 _
    rfl
  | cons c cs ih =>
    intro b1 b2 himp
    by_cases hw : Engine.isWsChar c
    · have hna : isAlnumChar c = false := ws_not_alnum c hw
      simp only [Engine.collapseWsAux, if_pos hw]
      by_cases hb2 : b2
      · have hb1 : b1 = true := himp hb2
        subst hb1
        rw [if_pos hb2]
        rw [ih true true (fun h => h)]
        simp only [Engine.repRunsAux, hna, Bool.false_eq_true, if_false, if_true]
      · rw [if_neg hb2]
        cases b1 with
        | true =>
          show Engine.repRunsAux true (' ' :: _) = _
          simp only [Engine.repRunsAux, space_not_alnum, Bool.false_eq_true,
            if_false, if_true, hna]
          exact ih true true (fun h => h)
        | false =>
          show Engine.repRunsAux false (' ' :: _) = _
          simp only [Engine.repRunsAux, space_not_alnum, Bool.false_eq_true,
            if_false, hna]
          rw [ih true true (fun h => h)]
    · simp only [Engine.collapseWsAux, if_neg hw]
      by_cases ha : isAlnumChar c
      · simp only [Engine.repRunsAux, ha, if_true]
        rw [ih false false (fun h => h)]
      · simp only [Engine.repRunsAux, ha, Bool.false_eq_true, if_false]
        cases b1 with
        | true =>
          simp only [if_true]
          exact ih true false (fun h => by exact absurd h (by simp))
        | false =>
          simp only [Bool.false_eq_true, if_false]
          rw [ih true false (fun h => by exact absurd h (by simp))]

theorem dropLeadingDash_cons_ne (c : Char) (X : List Char) (h : c ≠ '-') :
    Engine.dropLeadingDash (c :: X) = c :: X := by
  unfold Engine.dropLeadingDash
  split
  · rename_i heq
    injection heq with h1 _
    exact absurd h1 h
  · rfl

theorem repRunsAux_true_eq_dropLeadingDash (cs : List Char) :
    Engine.repRunsAux true cs = Engine.dropLeadingDash (Engine.repRunsAux false cs) := by
  cases cs with
  | nil => rfl
  | cons c cs2 =>
    by_cases ha : isAlnumChar c
    · simp only [Engine.repRunsAux, ha, if_true]
      exact (dropLeadingDash_cons_ne c _ (alnum_ne_dash c ha)).symm
    · simp only [Engine.repRunsAux, ha, Bool.false_eq_true, if_false, if_true]
      rfl

theorem dropLeadingDash_repRuns_dropWhile (m : List Char) :
    Engine.dropLeadingDash (Engine.repRuns (m.dropWhile (fun c => Engine.isWsChar c))) =
      Engine.dropLeadingDash (Engine.repRuns m) := by
  induction m with
  | nil => rfl
  | cons c cs ih =>
    by_cases hw : Engine.isWsChar c
    · rw [List.dropWhile_cons_of_pos (by simpa using hw)]
      rw [ih]
      have hna : isAlnumChar c = false := ws_not_alnum c hw
      show _ = Engine.dropLeadingDash (Engine.repRunsAux false (c :: cs))
      simp only [Engine.repRunsAux, hna, Bool.false_eq_true, if_false]
      show Engine.dropLeadingDash (Engine.repRuns cs) =
        Engine.dropLeadingDash ('-' :: Engine.repRunsAux true cs)
      show Engine.dropLeadingDash (Engine.repRuns cs) = Engine.repRunsAux true cs
      exact (repRunsAux_true_eq_dropLeadingDash cs).symm
    · rw [List.dropWhile_cons_of_neg (by simpa using hw)]

theorem runState_nil (b : Bool) : Engine.runState b [] = b := rfl

theorem runState_cons (b : Bool) (c : Char) (cs : List Char) :
    Engine.runState b (c :: cs) = Engine.runState (!(isAlnumChar c)) cs := rfl

theorem runState_concat (b : Bool) (xs : List Char) (x : Char) :
    Engine.runState b (xs ++ [x]) = !(isAlnumChar x) := by
  unfold Engine.runState
  rw [List.foldl_append]
  rfl

theorem repRunsAux_append (xs : List Char) :
    ∀ (b : Bool) (ys : List Char),
      Engine.repRunsAux b (xs ++ ys) =
        Engine.repRunsAux b xs ++ Engine.repRunsAux (Engine.runState b xs) ys := by
  induction xs with
  | nil =>
    intro b ys
    rfl
  | cons c cs ih =>
    intro b ys
    rw [List.cons_append]
    by_cases ha : isAlnumChar c
    · simp only [Engine.repRunsAux, ha, if_true]
      rw [ih false ys, runState_cons, ha]
      rfl
    · have hstate : Engine.runState b (c :: cs) = Engine.runState true cs := by
        rw [runState_cons]
        congr 1
        simp [ha]
      cases b with
      | true =>
        simp only [Engine.repRunsAux, ha, Bool.false_eq_true, if_false, if_true]
        rw [ih true ys, hstate]
      | false =>
        simp only [Engine.repRunsAux, ha, Bool.false_eq_true, if_false]
        rw [ih true ys, hstate]
        rfl

theorem repRunsAux_true_all_nonalnum (w : List Char)
    (h : ∀ c ∈ w, isAlnumChar c = false) : Engine.repRunsAux true w = [] := by
  induction w with
  | nil => rfl
  | cons c cs ih =>
    have hc := h c (List.mem_cons_self _ _)
    simp only [Engine.repRunsAux, hc, Bool.false_eq_true, if_false, if_true]
    exact ih (fun c2 hc2 => h c2 (List.mem_cons_of_mem _ hc2))

theorem repRunsAux_false_all_nonalnum (w : List Char)
    (h : ∀ c ∈ w, isAlnumChar c = false) (hne : w ≠ []) :
    Engine.repRunsAux false w = ['-'] := by
  cases w with
  | nil => exact absurd rfl hne
  | cons c cs =>
    have hc := h c (List.mem_cons_self _ _)
    simp only [Engine.repRunsAux, hc, Bool.false_eq_true, if_false]
    rw [repRunsAux_true_all_nonalnum cs (fun c2 hc2 => h c2 (List.mem_cons_of_mem _ hc2))]

theorem dropLeadingDash_dash_cons (l : List Char) :
    Engine.dropLeadingDash ('-' :: l) = l := rfl

theorem dropLeadingDash_append (X v : List Char) (h : X ≠ []) :
    Engine.dropLeadingDash (X ++ v) = Engine.dropLeadingDash X ++ v := by
  cases X with
  | nil => exact absurd rfl h
  | cons x xs =>
    by_cases hx : x = '-'
    · subst hx
      rw [List.cons_append, dropLeadingDash_dash_cons, dropLeadingDash_dash_cons]
    · rw [List.cons_append, dropLeadingDash_cons_ne _ _ hx,
        dropLeadingDash_cons_ne _ _ hx, List.cons_append]

theorem dropTrailingDash_append_dash (Y : List Char) :
    Engine.dropTrailingDash (Y ++ ['-']) = Y := by
  unfold Engine.dropTrailingDash
  rw [List.reverse_append]
  show (Engine.dropLeadingDash ('-' :: Y.reverse)).reverse = Y
  rw [dropLeadingDash_dash_cons, List.reverse_reverse]

theorem dropTrailingDash_concat_ne (W : List Char) (a : Char) (h : a ≠ '-') :
    Engine.dropTrailingDash (W ++ [a]) = W ++ [a] := by
  unfold Engine.dropTrailingDash
  rw [List.reverse_append]
  show (Engine.dropLeadingDash (a :: W.reverse)).reverse = W ++ [a]
  rw [dropLeadingDash_cons_ne _ _ h, List.reverse_cons, List.reverse_reverse]

theorem repRunsAux_singleton_alnum (s : Bool) (a : Char) (ha : isAlnumChar a = true) :
    Engine.repRunsAux s [a] = [a] := by
  simp [Engine.repRunsAux, ha]

theorem mem_takeWhile_pred {p : Char → Bool} :
    ∀ (l : List Char) (c : Char), c ∈ l.takeWhile p → p c = true := by
  intro l
  induction l with
  | nil =>
    intro c hc
    simp [List.takeWhile] at hc
  | cons x xs ih =>
    intro c hc
    rw [List.takeWhile_cons] at hc
    by_cases hx : p x
    · rw [if_pos hx] at hc
      rcases List.mem_cons.mp hc with h | h
      · exact h ▸ hx
      · exact ih c h
    · rw [if_neg hx] at hc
      simp at hc

theorem edge_repRuns_dropTrailWs (m : List Char) :
    Engine.dropTrailingDash (Engine.dropLeadingDash (Engine.repRuns
      ((m.reverse.dropWhile (fun c => Engine.isWsChar c)).reverse))) =
    Engine.dropTrailingDash (Engine.dropLeadingDash (Engine.repRuns m)) := by
  have hsplit : m = (m.reverse.dropWhile (fun c => Engine.isWsChar c)).reverse ++
      (m.reverse.takeWhile (fun c => Engine.isWsChar c)).reverse := by
    conv_lhs => rw [← List.reverse_reverse m]
    rw [← List.reverse_append, List.takeWhile_append_dropWhile]
  generalize hm0 : (m.reverse.dropWhile (fun c => Engine.isWsChar c)).reverse = m0 at hsplit ⊢
  generalize hwdef : (m.reverse.takeWhile (fun c => Engine.isWsChar c)).reverse = w at hsplit
  have hwws : ∀ c ∈ w, Engine.isWsChar c = true := by
    intro c hc
    rw [← hwdef, List.mem_reverse] at hc
    exact mem_takeWhile_pred _ c hc
  rw [hsplit]
  rcases eq_or_ne w [] with hwnil | hwne
  · rw [hwnil, List.append_nil]
  · have hwna : ∀ c ∈ w, isAlnumChar c = false :=
      fun c hc => ws_not_alnum c (hwws c hc)
    show Engine.dropTrailingDash (Engine.dropLeadingDash (Engine.repRunsAux false m0)) =
      Engine.dropTrailingDash (Engine.dropLeadingDash (Engine.repRunsAux false (m0 ++ w)))
    rw [repRunsAux_append m0 false w]
    by_cases hs : Engine.runState false m0 = true
    · rw [hs, repRunsAux_true_all_nonalnum w hwna, List.append_nil]
    · have hsf : Engine.runState false m0 = false := by
        cases h : Engine.runState false m0
        · rfl
        · exact absurd h hs
      rw [hsf, repRunsAux_false_all_nonalnum w hwna hwne]
      rcases List.eq_nil_or_concat m0 with hnil | ⟨as, a, hconc⟩
      · rw [hnil]
        rfl
      · rw [List.concat_eq_append] at hconc
        rw [hconc] at hsf ⊢
        rw [runState_concat] at hsf
        have ha : isAlnumChar a = true := by
          cases h : isAlnumChar a
          · rw [h] at hsf
            simp at hsf
          · rfl
        have hXa : Engine.repRunsAux false (as ++ [a]) =
            Engine.repRunsAux false as ++ [a] := by
          rw [repRunsAux_append as false [a], repRunsAux_singleton_alnum _ a ha]
        rw [hXa]
        have hXne : Engine.repRunsAux false as ++ [a] ≠ [] := by
          simp
        rw [dropLeadingDash_append _ ['-'] hXne, dropTrailingDash_append_dash]
        rcases eq_or_ne (Engine.repRunsAux false as) [] with hnil2 | hne2
        · rw [hnil2, List.nil_append,
            dropLeadingDash_cons_ne a [] (alnum_ne_dash a ha)]
          exact dropTrailingDash_concat_ne [] a (alnum_ne_dash a ha)
        · rw [dropLeadingDash_append _ [a] hne2,
            dropTrailingDash_concat_ne _ a (alnum_ne_dash a ha)]

theorem dropWhile_ws_map_lower (l : List Char) :
    (l.map lowerChar).dropWhile (fun c => Engine.isWsChar c) =
      (l.dropWhile (fun c => Engine.isWsChar c)).map lowerChar := by
  induction l with
  | nil => rfl
  | cons c cs ih =>
    rw [List.map_cons]
    by_cases hw : Engine.isWsChar c
    · rw [List.dropWhile_cons_of_pos (by simpa [isWsChar_lowerChar] using hw),
        List.dropWhile_cons_of_pos (by simpa using hw)]
      exact ih
    · rw [List.dropWhile_cons_of_neg (by simpa [isWsChar_lowerChar] using hw),
        List.dropWhile_cons_of_neg (by simpa using hw), List.map_cons]

theorem trimWs_map_lower (l : List Char) :
    Engine.trimWs (l.map lowerChar) = (Engine.trimWs l).map lowerChar := by
  unfold Engine.trimWs
  rw [dropWhile_ws_map_lower, ← List.map_reverse, dropWhile_ws_map_lower,
    ← List.map_reverse]

theorem collapseWsAux_map_lower (l : List Char) :
    ∀ b : Bool, Engine.collapseWsAux b (l.map lowerChar) =
      (Engine.collapseWsAux b l).map lowerChar := by
  induction l with
  | nil =>
    intro b
    rfl
  | cons c cs ih =>
    intro b
    rw [List.map_cons]
    by_cases hw : Engine.isWsChar c
    · have hw2 : Engine.isWsChar (lowerChar c) = true := by
        rw [isWsChar_lowerChar]
        exact hw
      simp only [Engine.collapseWsAux, hw, hw2, if_true]
      cases b with
      | true =>
        simp only [if_true]
        exact ih true
      | false =>
        simp only [Bool.false_eq_true, if_false]
        rw [List.map_cons, lowerChar_space, ih true]
    · have hw2 : Engine.isWsChar (lowerChar c) = false := by
        rw [isWsChar_lowerChar]
        simpa using hw
      simp only [Engine.collapseWsAux, hw2, Bool.false_eq_true, if_false,
        (by simpa using hw : Engine.isWsChar c = false)]
      rw [List.map_cons, ih false]

theorem map_lower_idem (l : List Char) :
    (l.map lowerChar).map lowerChar = l.map lowerChar := by
  rw [List.map_map]
  exact List.map_congr_left (fun c _ => lowerChar_idem c)

theorem slugify_normalizeQuery (q : String) :
    Engine.slugify (Engine.normalizeQuery q) = Engine.slugify q := by
  have hcore : Engine.dropTrailingDash (Engine.dropLeadingDash (Engine.repRuns
      ((Engine.normalizeQuery q).data.map lowerChar))) =
      Engine.dropTrailingDash (Engine.dropLeadingDash (Engine.repRuns
        (q.data.map lowerChar))) := by
    have h1 : (Engine.normalizeQuery q).data.map lowerChar =
        Engine.collapseWsAux false ((Engine.trimWs q.data).map lowerChar) := by
      show (Engine.collapseWsAux false ((Engine.trimWs q.data).map lowerChar)).map lowerChar =
        Engine.collapseWsAux false ((Engine.trimWs q.data).map lowerChar)
      rw [collapseWsAux_map_lower _ false, map_lower_idem,
        ← collapseWsAux_map_lower _ false]
    rw [h1]
    rw [show Engine.repRuns (Engine.collapseWsAux false
        ((Engine.trimWs q.data).map lowerChar)) =
      Engine.repRunsAux false (Engine.collapseWsAux false
        ((Engine.trimWs q.data).map lowerChar)) from rfl]
    rw [repRunsAux_collapseWsAux _ false false (fun h => h)]
    rw [← trimWs_map_lower]
    show Engine.dropTrailingDash (Engine.dropLeadingDash (Engine.repRuns
      (Engine.trimWs (q.data.map lowerChar)))) = _
    unfold Engine.trimWs
    rw [edge_repRuns_dropTrailWs ((q.data.map lowerChar).dropWhile
      (fun c => Engine.isWsChar c))]
    exact congrArg Engine.dropTrailingDash
      (dropLeadingDash_repRuns_dropWhile (q.data.map lowerChar))
  unfold Engine.slugify
  rw [hcore]

set_option maxRecDepth 400000 in
/-- C8 counterexample: two requests identical except that one source list
is `["reddit", "reddit"]` and the other `["reddit"]` are equal as sets
after lower-casing (their deduplications agree), yet deterministic
`buildRunId` returns different identifiers: the source list is sorted but
not deduplicated before hashing. -/
theorem buildRunId_duplicate_sources_counterexample :
    dedupFirst (["reddit", "reddit"].map lowerString) =
      dedupFirst (["reddit"].map lowerString) ∧
    Engine.buildRunId ⟨"ai", none, none, none, none, none⟩ "2024-01-02"
      ["reddit", "reddit"] "" ≠
    Engine.buildRunId ⟨"ai", none, none, none, none, none⟩ "2024-01-02"
      ["reddit"] "" := by
  constructor
  · decide
  · decide

/-- C8 (amended): in deterministic mode (the default), `buildRunId`
depends only on normalized run options: two calls with the same run date,
queries equal after trimming, lower-casing and whitespace collapsing,
source lists equal as multisets after lower-casing (equal once sorted, in
any order), and agreeing window_days, target, mode and top-N return
identical run identifiers. -/
theorem buildRunId_deterministic_normalized
    (o1 o2 : Engine.RunOptions) (runDate : String)
    (sources1 sources2 : List String) (uuid1 uuid2 : String)
    (hq : Engine.normalizeQuery o1.query = Engine.normalizeQuery o2.query)
    (hs : sortBy strLe (sources1.map lowerString) =
      sortBy strLe (sources2.map lowerString))
    (hw : o1.window_days = o2.window_days)
    (ht : o1.target = o2.target)
    (hm : o1.mode = o2.mode)
    (hn : o1.top_n = o2.top_n)
    (hd1 : o1.deterministic.getD true = true)
    (hd2 : o2.deterministic.getD true = true) :
    Engine.buildRunId o1 runDate sources1 uuid1 =
      Engine.buildRunId o2 runDate sources2 uuid2 := by
  have hslug : Engine.slugify o1.query = Engine.slugify o2.query := by
    rw [← slugify_normalizeQuery o1.query, hq, slugify_normalizeQuery]
  unfold Engine.buildRunId
  rw [hq, hs, hw, ht, hm, hn, hd1, hd2, hslug]
  rfl

/-- Closed witness for the amended C8 theorem: differently-cased queries
with extra whitespace and differently-ordered, differently-cased source
lists produce the same run identifier. -/
theorem buildRunId_deterministic_normalized_witness :
    Engine.buildRunId ⟨"AI  Agents", none, none, none, none, none⟩
      "2024-01-02" ["HN", "reddit"] "u1" =
    Engine.buildRunId ⟨" ai agents", none, none, none, none, some true⟩
      "2024-01-02" ["reddit", "hn"] "u2" :=
  buildRunId_deterministic_normalized
    ⟨"AI  Agents", none, none, none, none, none⟩
    ⟨" ai agents", none, none, none, none, some true⟩
    "2024-01-02" ["HN", "reddit"] ["reddit", "hn"] "u1" "u2"
    (by decide) (by decide) rfl rfl rfl rfl rfl rfl

/-- Closed witness for the C10 theorem at a concrete input with no graded
clusters. -/
theorem evidence_component_at_least_five_witness :
    5 ≤ (Scoring.calculateIntegrityScore
      { timestamp_tier_counts := []
        flags := []
        kept := 0
        echo_risk_stats := none
        evidence_grade_counts := none
        baseline := none }).components.evidence ∧
    (Scoring.calculateIntegrityScore
      { timestamp_tier_counts := []
        flags := []
        kept := 0
        echo_risk_stats := none
        evidence_grade_counts := none
        baseline := none }).components.evidence ≤ 15 :=
  evidence_component_at_least_five _ (by simp)

end SignalForge
